import Mathlib

/-!
Verification development for the todo-mcp-server core
(`src/services/projectService.ts`, `src/services/todoService.ts`,
`src/db/init.ts`).

The SQLite store is embedded shallowly: each table is a `List` of rows in
a `Store` record, `CURRENT_TIMESTAMP` is an abstract clock `Store.now`,
and `AUTOINCREMENT` ids are drawn from per-table counters.  Statement
failures (CHECK / FOREIGN KEY / PRIMARY KEY violations raised by the
store with `PRAGMA foreign_keys = ON`) are modelled as a generic
`ServiceError` with code `SQLITE_CONSTRAINT`, distinct from the service's
own 404 / 400 errors.  JavaScript `Math.round` on the progress ratio is
modelled as exact rational round-half-toward-positive-infinity on the
natural-number counts (floating point is modelled as exact arithmetic).
-/

namespace TodoMcp

/-- Project status column (`CHECK (status IN ('active','completed','on_hold','archived'))`). -/
inductive ProjectStatus where
  | active | completed | on_hold | archived
deriving DecidableEq

/-- Milestone status column (`CHECK (status IN ('pending','reached'))`). -/
inductive MilestoneStatus where
  | pending | reached
deriving DecidableEq

/-- Todo status column (`CHECK (status IN ('pending','completed'))`). -/
inductive TodoStatus where
  | pending | completed
deriving DecidableEq

/-- Todo level column (`CHECK (level IN ('task','subtask'))`). -/
inductive TodoLevel where
  | task | subtask
deriving DecidableEq

/-- TEXT value stored for a `ProjectStatus`, as the SQL queries compare it. -/
def ProjectStatus.text : ProjectStatus → String
  | .active => "active"
  | .completed => "completed"
  | .on_hold => "on_hold"
  | .archived => "archived"

/-- TEXT value stored for a `TodoStatus`. -/
def TodoStatus.text : TodoStatus → String
  | .pending => "pending"
  | .completed => "completed"

/-- TEXT value stored for a `TodoLevel`. -/
def TodoLevel.text : TodoLevel → String
  | .task => "task"
  | .subtask => "subtask"

/-- Row of the `projects` table. -/
structure Project where
  id : Nat
  name : String
  description : Option String
  status : ProjectStatus
  created_at : Nat
  updated_at : Nat
deriving DecidableEq

/-- Row of the `milestones` table. -/
structure Milestone where
  id : Nat
  project_id : Nat
  title : String
  target_date : String
  status : MilestoneStatus
  created_at : Nat
deriving DecidableEq

/-- Row of the `todos` table. -/
structure Todo where
  id : Nat
  title : String
  description : Option String
  status : TodoStatus
  priority : Nat
  due_date : Option String
  project_id : Option Nat
  parent_id : Option Nat
  milestone_id : Option Nat
  level : TodoLevel
  created_at : Nat
  updated_at : Nat
deriving DecidableEq

/-- `ProjectWithProgress` of `types.ts`. -/
structure ProjectWithProgress extends Project where
  total_tasks : Nat
  completed_tasks : Nat
  progress_percent : Nat
deriving DecidableEq

/-- `MilestoneWithProgress` of `types.ts`. -/
structure MilestoneWithProgress extends Milestone where
  total_tasks : Nat
  completed_tasks : Nat
  progress_percent : Nat
deriving DecidableEq

/-- `TodoWithChildren` of `types.ts`: a task carrying its subtasks. -/
structure TodoWithChildren extends Todo where
  subtasks : List Todo
deriving DecidableEq

/-- `ProjectCreateInput` of `types.ts`; absent optional fields are `none`. -/
structure ProjectCreateInput where
  name : String
  description : Option String := none
deriving DecidableEq

/-- `ProjectUpdateInput` of `types.ts`.  The outer `Option` is field
presence; the inner `Option` on `description` is SQL NULL. -/
structure ProjectUpdateInput where
  name : Option String := none
  description : Option (Option String) := none
  status : Option ProjectStatus := none
deriving DecidableEq

/-- `MilestoneCreateInput` of `types.ts`. -/
structure MilestoneCreateInput where
  project_id : Nat
  title : String
  target_date : String
deriving DecidableEq

/-- `TodoCreateInput` of `types.ts`; absent optional fields are `none`. -/
structure TodoCreateInput where
  title : String
  description : Option String := none
  priority : Option Nat := none
  due_date : Option String := none
  project_id : Option Nat := none
  parent_id : Option Nat := none
  milestone_id : Option Nat := none
deriving DecidableEq

/-- `TodoUpdateInput` of `types.ts`.  The outer `Option` is field
presence; the inner `Option` is SQL NULL for nullable columns. -/
structure TodoUpdateInput where
  title : Option String := none
  description : Option (Option String) := none
  status : Option TodoStatus := none
  priority : Option Nat := none
  due_date : Option (Option String) := none
  project_id : Option (Option Nat) := none
  parent_id : Option (Option Nat) := none
  milestone_id : Option (Option Nat) := none
deriving DecidableEq

/-- `TodoListResult` of `types.ts`. -/
structure TodoListResult where
  todos : List Todo
  totalCount : Nat
deriving DecidableEq

/-- `ServiceError` of `projectService.ts`. -/
structure ServiceError where
  message : String
  statusCode : Nat := 500
  code : String := "INTERNAL_ERROR"
deriving DecidableEq

/-- `{ success: true; id }` confirmation returned by the delete operations. -/
structure DeleteResult where
  success : Bool
  id : Nat
deriving DecidableEq

/-- The relational store: the four tables (the append-only `tool_actions`
log is a list of opaque entries), the `AUTOINCREMENT` counters, and the
clock supplying `CURRENT_TIMESTAMP`. -/
structure Store where
  projects : List Project
  milestones : List Milestone
  todos : List Todo
  nextProjectId : Nat := 1
  nextMilestoneId : Nat := 1
  nextTodoId : Nat := 1
  now : Nat := 0
deriving DecidableEq

/-- JS truthiness of a nullable numeric field: `null` and `0` are falsy.
`todoService.create` branches on `if (parent_id)`. -/
def truthy : Option Nat → Bool
  | none => false
  | some n => decide (n ≠ 0)

/-- `SELECT * FROM projects WHERE id = ?` via `.get` (first matching row). -/
def lookupProject (s : Store) (id : Nat) : Option Project :=
  s.projects.find? (fun p => decide (p.id = id))

/-- `SELECT * FROM milestones WHERE id = ?` via `.get`. -/
def lookupMilestone (s : Store) (id : Nat) : Option Milestone :=
  s.milestones.find? (fun m => decide (m.id = id))

/-- `SELECT * FROM todos WHERE id = ?` via `.get`. -/
def lookupTodo (s : Store) (id : Nat) : Option Todo :=
  s.todos.find? (fun t => decide (t.id = id))

/-- `CHECK (priority BETWEEN 1 AND 5)` on the `todos` table. -/
def todoCheckOk (t : Todo) : Bool :=
  decide (1 ≤ t.priority ∧ t.priority ≤ 5)

/-- FOREIGN KEY constraints of the `todos` table (`foreign_keys = ON`). -/
def todoFkOk (s : Store) (t : Todo) : Bool :=
  (match t.project_id with
   | none => true
   | some pid => (lookupProject s pid).isSome)
  && (match t.parent_id with
      | none => true
      | some q => (lookupTodo s q).isSome)
  && (match t.milestone_id with
      | none => true
      | some mid => (lookupMilestone s mid).isSome)

/-- A store-level constraint violation (CHECK / FK / PK), surfaced by the
sql.js wrapper as a thrown error; modelled in the same error type, with a
code distinct from every service-raised code. -/
def sqliteConstraintError : ServiceError :=
  { message := "constraint failed", statusCode := 500, code := "SQLITE_CONSTRAINT" }

/-- The 404 error raised by `TodoService.getById`. -/
def notFoundTodoError (id : Nat) : ServiceError :=
  { message := "투두를 찾을 수 없습니다 (ID: " ++ toString id ++ ")",
    statusCode := 404, code := "TODO_NOT_FOUND" }

/-- The 404 error raised by `ProjectService.getById`. -/
def notFoundProjectError (id : Nat) : ServiceError :=
  { message := "프로젝트를 찾을 수 없습니다 (ID: " ++ toString id ++ ")",
    statusCode := 404, code := "PROJECT_NOT_FOUND" }

/-- The 404 error raised by `ProjectService.getMilestoneById`. -/
def notFoundMilestoneError (id : Nat) : ServiceError :=
  { message := "마일스톤을 찾을 수 없습니다 (ID: " ++ toString id ++ ")",
    statusCode := 404, code := "MILESTONE_NOT_FOUND" }

/-- The 400 error raised when creating a child under a subtask. -/
def maxDepthError : ServiceError :=
  { message := "서브태스크 아래에 추가 하위 태스크를 만들 수 없습니다 (최대 3단계)",
    statusCode := 400, code := "MAX_DEPTH_EXCEEDED" }

/-- JS `Math.round (num / den)` for naturals with `den > 0`, modelled as
exact round-half-toward-positive-infinity on the rational `num / den`. -/
def mathRound (num den : Nat) : Nat :=
  (2 * num + den) / (2 * den)

/-- Insertion step for the `ORDER BY` model. -/
def insertLe {α : Type} (le : α → α → Bool) (a : α) : List α → List α
  | [] => [a]
  | b :: bs => if le a b then a :: b :: bs else b :: insertLe le a bs

/-- Insertion sort modelling SQL `ORDER BY` (only the multiset of rows
matters to the properties proved here). -/
def sortLe {α : Type} (le : α → α → Bool) : List α → List α
  | [] => []
  | a :: as => insertLe le a (sortLe le as)

/-- `due_date ASC` comparison: SQLite sorts NULLs first in ASC order. -/
def dueLe : Option String → Option String → Bool
  | none, _ => true
  | some _, none => false
  | some a, some b => decide (a ≤ b)

/-- `ORDER BY priority ASC, due_date ASC` on todos. -/
def todoLe (a b : Todo) : Bool :=
  if a.priority = b.priority then dueLe a.due_date b.due_date
  else decide (a.priority < b.priority)

/-- `ORDER BY id DESC` on projects. -/
def projGe (a b : Project) : Bool :=
  decide (b.id ≤ a.id)

/-- `ORDER BY target_date ASC` on milestones. -/
def msLe (a b : Milestone) : Bool :=
  decide (a.target_date ≤ b.target_date)

namespace TodoService

/-- Filter options accepted by `TodoService.getAll`.  `status` and `level`
are compared as TEXT, as in the SQL; `parent_id`'s outer `Option` is
field presence and `some none` is the explicit `IS NULL` filter. -/
structure ListOptions where
  status : Option String := none
  project_id : Option Nat := none
  parent_id : Option (Option Nat) := none
  level : Option String := none
deriving DecidableEq

/-- `TodoService.getAll`: `SELECT * FROM todos WHERE 1=1` plus the ANDed
filters, `ORDER BY priority ASC, due_date ASC`. -/
def getAll (s : Store) (o : ListOptions := {}) : TodoListResult :=
  let l1 := match o.status with
    | none => s.todos
    | some st => s.todos.filter (fun t => decide (t.status.text = st))
  let l2 := match o.project_id with
    | none => l1
    | some pid => l1.filter (fun t => decide (t.project_id = some pid))
  let l3 := match o.parent_id with
    | none => l2
    | some none => l2.filter (fun t => decide (t.parent_id = none))
    | some (some q) => l2.filter (fun t => decide (t.parent_id = some q))
  let l4 := match o.level with
    | none => l3
    | some lv => l3.filter (fun t => decide (t.level.text = lv))
  let sorted := sortLe todoLe l4
  { todos := sorted, totalCount := sorted.length }

/-- `TodoService.getStandalone`:
`WHERE project_id IS NULL AND parent_id IS NULL` plus the status filter. -/
def getStandalone (s : Store) (status : Option String := none) : TodoListResult :=
  let l1 := s.todos.filter (fun t => decide (t.project_id = none ∧ t.parent_id = none))
  let l2 := match status with
    | none => l1
    | some st => l1.filter (fun t => decide (t.status.text = st))
  let sorted := sortLe todoLe l2
  { todos := sorted, totalCount := sorted.length }

/-- `TodoService.getProjectTree`: top-level tasks of the project, each
carrying its ordered subtasks. -/
def getProjectTree (s : Store) (projectId : Nat) : List TodoWithChildren :=
  let tasks := sortLe todoLe
    (s.todos.filter (fun t => decide (t.project_id = some projectId ∧ t.parent_id = none)))
  tasks.map (fun task =>
    { toTodo := task,
      subtasks := sortLe todoLe
        (s.todos.filter (fun t => decide (t.parent_id = some task.id))) })

/-- `TodoService.getById`: single row or a 404 `ServiceError`. -/
def getById (s : Store) (id : Nat) : Except ServiceError Todo :=
  match lookupTodo s id with
  | none => .error (notFoundTodoError id)
  | some t => .ok t

/-- The row built by `TodoService.create`'s INSERT: column defaults
(`status = pending`, `priority = 3`, timestamps), the resolved project id
and the level derived from `parent_id` presence. -/
def newTodoRow (s : Store) (d : TodoCreateInput) (resolvedProjectId : Option Nat) : Todo :=
  { id := s.nextTodoId, title := d.title, description := d.description,
    status := TodoStatus.pending, priority := d.priority.getD 3,
    due_date := d.due_date, project_id := resolvedProjectId,
    parent_id := d.parent_id, milestone_id := d.milestone_id,
    level := if truthy d.parent_id then TodoLevel.subtask else TodoLevel.task,
    created_at := s.now, updated_at := s.now }

/-- Effect on the store of a successful `INSERT INTO todos`. -/
def insertTodo (s : Store) (row : Todo) : Store :=
  { s with todos := s.todos ++ [row], nextTodoId := s.nextTodoId + 1 }

/-- The `if (parent_id)` block of `TodoService.create`: fetch the parent
(404 if missing), reject a subtask parent (400), else inherit the
parent's `project_id`, discarding the caller's; without a (truthy)
`parent_id` keep the caller's `project_id`. -/
def resolveParent (s : Store) (d : TodoCreateInput) : Except ServiceError (Option Nat) :=
  if truthy d.parent_id then
    match getById s (d.parent_id.getD 0) with
    | .error e => .error e
    | .ok parent =>
      if parent.level = TodoLevel.subtask then .error maxDepthError
      else .ok parent.project_id
  else .ok d.project_id

/-- `TodoService.create`: level derived from `parent_id` presence, the
parent fetched and depth-checked, the parent's `project_id` inherited,
then the INSERT (subject to the table's CHECK / FK / PK constraints) and
the re-fetch of the fresh row. -/
def create (s : Store) (d : TodoCreateInput) : Except ServiceError Todo × Store :=
  match resolveParent s d with
  | .error e => (.error e, s)
  | .ok resolvedProjectId =>
    if todoCheckOk (newTodoRow s d resolvedProjectId)
        && todoFkOk s (newTodoRow s d resolvedProjectId)
        && (lookupTodo s (newTodoRow s d resolvedProjectId).id).isNone then
      match getById (insertTodo s (newTodoRow s d resolvedProjectId)) s.nextTodoId with
      | .error e => (.error e, insertTodo s (newTodoRow s d resolvedProjectId))
      | .ok t => (.ok t, insertTodo s (newTodoRow s d resolvedProjectId))
    else (.error sqliteConstraintError, s)

/-- `TodoService.createMany`: `items.map((item) => this.create(item))` —
sequential, state committed after each item, the first thrown error
propagated. -/
def createMany (s : Store) : List TodoCreateInput → Except ServiceError (List Todo) × Store
  | [] => (.ok [], s)
  | i :: rest =>
    match create s i with
    | (.error e, s1) => (.error e, s1)
    | (.ok t, s1) =>
      match createMany s1 rest with
      | (.error e, s2) => (.error e, s2)
      | (.ok ts, s2) => (.ok (t :: ts), s2)

/-- The dynamic `UPDATE todos SET ... , updated_at = CURRENT_TIMESTAMP`
applied to one row: supplied fields overwrite, others stay. -/
def applyTodoPatch (t : Todo) (d : TodoUpdateInput) (now : Nat) : Todo :=
  { t with
    title := d.title.getD t.title,
    description := d.description.getD t.description,
    status := d.status.getD t.status,
    priority := d.priority.getD t.priority,
    due_date := d.due_date.getD t.due_date,
    project_id := d.project_id.getD t.project_id,
    parent_id := d.parent_id.getD t.parent_id,
    milestone_id := d.milestone_id.getD t.milestone_id,
    updated_at := now }

/-- Store after the `UPDATE todos ... WHERE id = ?` statement. -/
def patchTodoStore (s : Store) (id : Nat) (d : TodoUpdateInput) : Store :=
  { s with todos := s.todos.map (fun u => if u.id = id then applyTodoPatch u d s.now else u) }

/-- `TodoService.update`: existence check, dynamic field-by-field UPDATE
(subject to the table constraints), re-fetch. -/
def update (s : Store) (id : Nat) (d : TodoUpdateInput) : Except ServiceError Todo × Store :=
  match getById s id with
  | .error e => (.error e, s)
  | .ok t0 =>
    if todoCheckOk (applyTodoPatch t0 d s.now) && todoFkOk s (applyTodoPatch t0 d s.now) then
      match getById (patchTodoStore s id d) id with
      | .error e => (.error e, patchTodoStore s id d)
      | .ok t => (.ok t, patchTodoStore s id d)
    else (.error sqliteConstraintError, s)

/-- `TodoService.updateStatus`: `update` restricted to the status field. -/
def updateStatus (s : Store) (id : Nat) (st : TodoStatus) : Except ServiceError Todo × Store :=
  update s id { status := some st }

/-- One round of `ON DELETE CASCADE` on `todos.parent_id`: ids of rows
whose parent is already doomed and that are not yet collected. -/
def childIdsOf (todos : List Todo) (ids : List Nat) : List Nat :=
  (todos.filter (fun t =>
    (match t.parent_id with
     | some q => ids.contains q
     | none => false) && !(ids.contains t.id))).map (fun t => t.id)

/-- Transitive closure of the cascade, with enough fuel to stabilise. -/
def cascadeIds (todos : List Todo) : Nat → List Nat → List Nat
  | 0, acc => acc
  | fuel + 1, acc =>
    let more := childIdsOf todos acc
    if more = [] then acc else cascadeIds todos fuel (acc ++ more)

/-- Store after `DELETE FROM todos WHERE id = ?` plus the cascade. -/
def deleteTodoStore (s : Store) (id : Nat) : Store :=
  { s with
    todos := s.todos.filter
      (fun t => !((cascadeIds s.todos (s.todos.length + 1) [id]).contains t.id)) }

/-- `TodoService.delete`: existence check, then
`DELETE FROM todos WHERE id = ?` with the FK cascade removing children. -/
def delete (s : Store) (id : Nat) : Except ServiceError DeleteResult × Store :=
  match getById s id with
  | .error e => (.error e, s)
  | .ok _ => (.ok { success := true, id := id }, deleteTodoStore s id)

end TodoService

namespace ProjectService

/-- `ProjectService.attachProgress`: the two COUNT queries over `todos`
scoped by `project_id`, and `Math.round((completed / total) * 100)` when
`total > 0`, else `0`. -/
def attachProgress (s : Store) (p : Project) : ProjectWithProgress :=
  let totalCount := (s.todos.filter (fun t => decide (t.project_id = some p.id))).length
  let completedCount :=
    (s.todos.filter (fun t =>
      decide (t.project_id = some p.id ∧ t.status = TodoStatus.completed))).length
  { toProject := p,
    total_tasks := totalCount,
    completed_tasks := completedCount,
    progress_percent := if 0 < totalCount then mathRound (completedCount * 100) totalCount else 0 }

/-- `ProjectService.attachMilestoneProgress`: the same counts scoped by
`milestone_id`. -/
def attachMilestoneProgress (s : Store) (m : Milestone) : MilestoneWithProgress :=
  let totalCount := (s.todos.filter (fun t => decide (t.milestone_id = some m.id))).length
  let completedCount :=
    (s.todos.filter (fun t =>
      decide (t.milestone_id = some m.id ∧ t.status = TodoStatus.completed))).length
  { toMilestone := m,
    total_tasks := totalCount,
    completed_tasks := completedCount,
    progress_percent := if 0 < totalCount then mathRound (completedCount * 100) totalCount else 0 }

/-- `ProjectService.getAll`: optional status filter (TEXT comparison),
`ORDER BY id DESC`, each row with progress attached. -/
def getAll (s : Store) (status : Option String := none) : List ProjectWithProgress :=
  let l := match status with
    | none => s.projects
    | some st => s.projects.filter (fun p => decide (p.status.text = st))
  (sortLe projGe l).map (attachProgress s)

/-- `ProjectService.getById`: single project with progress or a 404. -/
def getById (s : Store) (id : Nat) : Except ServiceError ProjectWithProgress :=
  match lookupProject s id with
  | none => .error (notFoundProjectError id)
  | some p => .ok (attachProgress s p)

/-- The row built by `ProjectService.create`'s
`INSERT INTO projects (name, description)`: status defaults to `active`,
timestamps to `CURRENT_TIMESTAMP`. -/
def newProjectRow (s : Store) (d : ProjectCreateInput) : Project :=
  { id := s.nextProjectId, name := d.name, description := d.description,
    status := ProjectStatus.active, created_at := s.now, updated_at := s.now }

/-- Effect on the store of a successful `INSERT INTO projects`. -/
def insertProject (s : Store) (row : Project) : Store :=
  { s with projects := s.projects ++ [row], nextProjectId := s.nextProjectId + 1 }

/-- `ProjectService.create`: the INSERT (subject to the PRIMARY KEY
constraint) then the re-fetch of the fresh row with progress. -/
def create (s : Store) (d : ProjectCreateInput) : Except ServiceError ProjectWithProgress × Store :=
  if (lookupProject s (newProjectRow s d).id).isSome then (.error sqliteConstraintError, s)
  else
    match getById (insertProject s (newProjectRow s d)) s.nextProjectId with
    | .error e => (.error e, insertProject s (newProjectRow s d))
    | .ok r => (.ok r, insertProject s (newProjectRow s d))

/-- The dynamic `UPDATE projects SET ... , updated_at = CURRENT_TIMESTAMP`
applied to one row. -/
def applyProjectPatch (p : Project) (d : ProjectUpdateInput) (now : Nat) : Project :=
  { p with
    name := d.name.getD p.name,
    description := d.description.getD p.description,
    status := d.status.getD p.status,
    updated_at := now }

/-- Store after the `UPDATE projects ... WHERE id = ?` statement. -/
def patchProjectStore (s : Store) (id : Nat) (d : ProjectUpdateInput) : Store :=
  { s with projects := s.projects.map (fun p => if p.id = id then applyProjectPatch p d s.now else p) }

/-- `ProjectService.update`: existence check, dynamic field-by-field
UPDATE, re-fetch with progress. -/
def update (s : Store) (id : Nat) (d : ProjectUpdateInput) :
    Except ServiceError ProjectWithProgress × Store :=
  match getById s id with
  | .error e => (.error e, s)
  | .ok _ =>
    match getById (patchProjectStore s id d) id with
    | .error e => (.error e, patchProjectStore s id d)
    | .ok r => (.ok r, patchProjectStore s id d)

/-- `ProjectService.delete`: existence check, then
`DELETE FROM projects WHERE id = ?` with the referential actions:
milestones of the project are CASCADE-deleted, todos referencing the
project get `project_id = NULL`, and todos referencing a deleted
milestone get `milestone_id = NULL`. -/
def delete (s : Store) (id : Nat) : Except ServiceError DeleteResult × Store :=
  match getById s id with
  | .error e => (.error e, s)
  | .ok _ =>
    let deadMs := (s.milestones.filter (fun m => decide (m.project_id = id))).map (fun m => m.id)
    (.ok { success := true, id := id },
     { s with
       projects := s.projects.filter (fun p => !(decide (p.id = id))),
       milestones := s.milestones.filter (fun m => !(decide (m.project_id = id))),
       todos := s.todos.map (fun t =>
         let t1 := if t.project_id = some id then { t with project_id := none } else t
         match t1.milestone_id with
         | some mid => if deadMs.contains mid then { t1 with milestone_id := none } else t1
         | none => t1) })

/-- `ProjectService.getMilestones`: project existence check, milestones
`ORDER BY target_date ASC`, each with progress. -/
def getMilestones (s : Store) (projectId : Nat) :
    Except ServiceError (List MilestoneWithProgress) :=
  match getById s projectId with
  | .error e => .error e
  | .ok _ =>
    .ok ((sortLe msLe (s.milestones.filter (fun m => decide (m.project_id = projectId)))).map
      (attachMilestoneProgress s))

/-- `ProjectService.getMilestoneById`: single milestone with progress or a 404. -/
def getMilestoneById (s : Store) (id : Nat) : Except ServiceError MilestoneWithProgress :=
  match lookupMilestone s id with
  | none => .error (notFoundMilestoneError id)
  | some m => .ok (attachMilestoneProgress s m)

/-- The row built by `ProjectService.createMilestone`'s INSERT: status
defaults to `pending`. -/
def newMilestoneRow (s : Store) (d : MilestoneCreateInput) : Milestone :=
  { id := s.nextMilestoneId, project_id := d.project_id, title := d.title,
    target_date := d.target_date, status := MilestoneStatus.pending, created_at := s.now }

/-- Effect on the store of a successful `INSERT INTO milestones`. -/
def insertMilestone (s : Store) (row : Milestone) : Store :=
  { s with milestones := s.milestones ++ [row], nextMilestoneId := s.nextMilestoneId + 1 }

/-- `ProjectService.createMilestone`: project existence check, INSERT
with default status `pending` (subject to the PRIMARY KEY constraint),
re-fetch. -/
def createMilestone (s : Store) (d : MilestoneCreateInput) :
    Except ServiceError MilestoneWithProgress × Store :=
  match getById s d.project_id with
  | .error e => (.error e, s)
  | .ok _ =>
    if (lookupMilestone s (newMilestoneRow s d).id).isSome then (.error sqliteConstraintError, s)
    else
      match getMilestoneById (insertMilestone s (newMilestoneRow s d)) s.nextMilestoneId with
      | .error e => (.error e, insertMilestone s (newMilestoneRow s d))
      | .ok r => (.ok r, insertMilestone s (newMilestoneRow s d))

/-- Store after the `UPDATE milestones SET status = ? WHERE id = ?`
statement. -/
def setMilestoneStatus (s : Store) (id : Nat) (st : MilestoneStatus) : Store :=
  { s with milestones := s.milestones.map (fun m => if m.id = id then { m with status := st } else m) }

/-- `ProjectService.completeMilestone`: existence check, then
`UPDATE milestones SET status = ?` with `reached`, or `pending` on undo,
and the re-fetch. -/
def completeMilestone (s : Store) (id : Nat) (undo : Bool := false) :
    Except ServiceError MilestoneWithProgress × Store :=
  match getMilestoneById s id with
  | .error e => (.error e, s)
  | .ok _ =>
    match getMilestoneById (setMilestoneStatus s id (if undo then MilestoneStatus.pending else MilestoneStatus.reached)) id with
    | .error e => (.error e, setMilestoneStatus s id (if undo then MilestoneStatus.pending else MilestoneStatus.reached))
    | .ok r => (.ok r, setMilestoneStatus s id (if undo then MilestoneStatus.pending else MilestoneStatus.reached))

/-- `ProjectService.deleteMilestone`: existence check, DELETE, todos
referencing the milestone get `milestone_id = NULL`. -/
def deleteMilestone (s : Store) (id : Nat) : Except ServiceError DeleteResult × Store :=
  match getMilestoneById s id with
  | .error e => (.error e, s)
  | .ok _ =>
    (.ok { success := true, id := id },
     { s with
       milestones := s.milestones.filter (fun m => !(decide (m.id = id))),
       todos := s.todos.map (fun t =>
         if t.milestone_id = some id then { t with milestone_id := none } else t) })

end ProjectService

/-! ### Generic list helpers -/

theorem mem_insertLe {α : Type} (le : α → α → Bool) (a x : α) (l : List α) :
    x ∈ insertLe le a l ↔ x = a ∨ x ∈ l := by
  induction l with
  | nil => simp [insertLe]
  | cons b bs ih =>
    simp only [insertLe]
    split
    · simp [List.mem_cons]
    · simp only [List.mem_cons, ih]
      tauto

theorem mem_sortLe {α : Type} (le : α → α → Bool) (x : α) (l : List α) :
    x ∈ sortLe le l ↔ x ∈ l := by
  induction l with
  | nil => simp [sortLe]
  | cons a as ih =>
    simp [sortLe, mem_insertLe, ih, List.mem_cons]

theorem length_filter_imp {α : Type} (p q : α → Bool) (l : List α)
    (h : ∀ a, q a = true → p a = true) :
    (l.filter q).length ≤ (l.filter p).length := by
  induction l with
  | nil => simp
  | cons a l ih =>
    simp only [List.filter_cons]
    by_cases hq : q a = true
    · simp only [hq, h a hq, if_true]
      simpa using ih
    · simp only [Bool.not_eq_true] at hq
      simp only [hq, Bool.false_eq_true, if_false]
      split
      · exact Nat.le_trans ih (Nat.le_succ _)
      · exact ih

theorem find?_map_preserving {α : Type} (f : α → α) (p : α → Bool) (l : List α)
    (hf : ∀ a, p (f a) = p a) :
    (l.map f).find? p = (l.find? p).map f := by
  rw [List.find?_map]
  have hpf : p ∘ f = p := by
    funext a
    simp [Function.comp, hf]
  rw [hpf]

/-! ### Progress formula: spec-side definitions -/

/-- Number of todos linked to project `pid` (the first COUNT query). -/
def linkedCountP (s : Store) (pid : Nat) : Nat :=
  (s.todos.filter (fun t => decide (t.project_id = some pid))).length

/-- Number of completed todos linked to project `pid`. -/
def completedCountP (s : Store) (pid : Nat) : Nat :=
  (s.todos.filter (fun t =>
    decide (t.project_id = some pid ∧ t.status = TodoStatus.completed))).length

/-- Number of todos linked to milestone `mid`. -/
def linkedCountM (s : Store) (mid : Nat) : Nat :=
  (s.todos.filter (fun t => decide (t.milestone_id = some mid))).length

/-- Number of completed todos linked to milestone `mid`. -/
def completedCountM (s : Store) (mid : Nat) : Nat :=
  (s.todos.filter (fun t =>
    decide (t.milestone_id = some mid ∧ t.status = TodoStatus.completed))).length

/-- The spec's formula: standard round-half-up of
`completed / total * 100`, i.e. the floor of `100 * completed / total + 1/2`. -/
def roundHalfUpPercent (completed total : Nat) : Nat :=
  (200 * completed + total) / (2 * total)

/-- The progress fields of a returned project record are the claim's
formula evaluated over the store. -/
def ProgressSpecP (s : Store) (r : ProjectWithProgress) : Prop :=
  r.total_tasks = linkedCountP s r.id ∧
  r.completed_tasks = completedCountP s r.id ∧
  r.progress_percent =
    (if 0 < linkedCountP s r.id then
      roundHalfUpPercent (completedCountP s r.id) (linkedCountP s r.id)
     else 0)

/-- Milestone analogue of `ProgressSpecP`. -/
def ProgressSpecM (s : Store) (r : MilestoneWithProgress) : Prop :=
  r.total_tasks = linkedCountM s r.id ∧
  r.completed_tasks = completedCountM s r.id ∧
  r.progress_percent =
    (if 0 < linkedCountM s r.id then
      roundHalfUpPercent (completedCountM s r.id) (linkedCountM s r.id)
     else 0)

/-- The bound invariant of a returned project record. -/
def ProgressBoundsP (r : ProjectWithProgress) : Prop :=
  0 ≤ r.completed_tasks ∧ r.completed_tasks ≤ r.total_tasks ∧
  0 ≤ r.progress_percent ∧ r.progress_percent ≤ 100

/-- The bound invariant of a returned milestone record. -/
def ProgressBoundsM (r : MilestoneWithProgress) : Prop :=
  0 ≤ r.completed_tasks ∧ r.completed_tasks ≤ r.total_tasks ∧
  0 ≤ r.progress_percent ∧ r.progress_percent ≤ 100

theorem mathRound_eq_roundHalfUp (c t : Nat) :
    mathRound (c * 100) t = roundHalfUpPercent c t := by
  unfold mathRound roundHalfUpPercent
  congr 1
  ring

theorem attachProgress_spec (s : Store) (p : Project) :
    ProgressSpecP s (ProjectService.attachProgress s p) := by
  unfold ProgressSpecP ProjectService.attachProgress linkedCountP completedCountP
  refine ⟨rfl, rfl, ?_⟩
  simp only [mathRound_eq_roundHalfUp]

theorem attachMilestoneProgress_spec (s : Store) (m : Milestone) :
    ProgressSpecM s (ProjectService.attachMilestoneProgress s m) := by
  unfold ProgressSpecM ProjectService.attachMilestoneProgress linkedCountM completedCountM
  refine ⟨rfl, rfl, ?_⟩
  simp only [mathRound_eq_roundHalfUp]

theorem completedCountP_le (s : Store) (pid : Nat) :
    completedCountP s pid ≤ linkedCountP s pid := by
  unfold completedCountP linkedCountP
  refine length_filter_imp _ _ _ (fun t ht => ?_)
  simp only [decide_eq_true_eq] at ht ⊢
  exact ht.1

theorem completedCountM_le (s : Store) (mid : Nat) :
    completedCountM s mid ≤ linkedCountM s mid := by
  unfold completedCountM linkedCountM
  refine length_filter_imp _ _ _ (fun t ht => ?_)
  simp only [decide_eq_true_eq] at ht ⊢
  exact ht.1

theorem roundHalfUpPercent_le_100 (c t : Nat) (hc : c ≤ t) (ht : 0 < t) :
    roundHalfUpPercent c t ≤ 100 := by
  unfold roundHalfUpPercent
  have h2t : 0 < 2 * t := by omega
  have hlt : 200 * c + t < 101 * (2 * t) := by omega
  have := (Nat.div_lt_iff_lt_mul h2t).mpr hlt
  omega

theorem progressSpecP_bounds (s : Store) (r : ProjectWithProgress)
    (h : ProgressSpecP s r) : ProgressBoundsP r := by
  obtain ⟨h1, h2, h3⟩ := h
  refine ⟨Nat.zero_le _, ?_, Nat.zero_le _, ?_⟩
  · rw [h1, h2]; exact completedCountP_le s r.id
  · rw [h3]
    split
    · next hpos => exact roundHalfUpPercent_le_100 _ _ (completedCountP_le s r.id) hpos
    · exact Nat.zero_le _

theorem progressSpecM_bounds (s : Store) (r : MilestoneWithProgress)
    (h : ProgressSpecM s r) : ProgressBoundsM r := by
  obtain ⟨h1, h2, h3⟩ := h
  refine ⟨Nat.zero_le _, ?_, Nat.zero_le _, ?_⟩
  · rw [h1, h2]; exact completedCountM_le s r.id
  · rw [h3]
    split
    · next hpos => exact roundHalfUpPercent_le_100 _ _ (completedCountM_le s r.id) hpos
    · exact Nat.zero_le _

/-! ### ProjectService operation helper lemmas -/

theorem ProjectService.getById_ok (s : Store) (id : Nat) (r : ProjectWithProgress)
    (h : ProjectService.getById s id = .ok r) :
    ∃ p, lookupProject s id = some p ∧ r = ProjectService.attachProgress s p := by
  unfold ProjectService.getById at h
  cases hl : lookupProject s id with
  | none => rw [hl] at h; exact Except.noConfusion h
  | some p =>
    rw [hl] at h
    injection h with h2
    exact ⟨p, rfl, h2.symm⟩

theorem ProjectService.getMilestoneById_ok (s : Store) (id : Nat) (r : MilestoneWithProgress)
    (h : ProjectService.getMilestoneById s id = .ok r) :
    ∃ m, lookupMilestone s id = some m ∧ r = ProjectService.attachMilestoneProgress s m := by
  unfold ProjectService.getMilestoneById at h
  cases hl : lookupMilestone s id with
  | none => rw [hl] at h; exact Except.noConfusion h
  | some m =>
    rw [hl] at h
    injection h with h2
    exact ⟨m, rfl, h2.symm⟩

theorem ProjectService.getById_progressSpec (s : Store) (id : Nat) (r : ProjectWithProgress)
    (h : ProjectService.getById s id = .ok r) : ProgressSpecP s r := by
  obtain ⟨p, _, hr⟩ := ProjectService.getById_ok s id r h
  rw [hr]
  exact attachProgress_spec s p

theorem ProjectService.getMilestoneById_progressSpec (s : Store) (id : Nat)
    (r : MilestoneWithProgress)
    (h : ProjectService.getMilestoneById s id = .ok r) : ProgressSpecM s r := by
  obtain ⟨m, _, hr⟩ := ProjectService.getMilestoneById_ok s id r h
  rw [hr]
  exact attachMilestoneProgress_spec s m

theorem ProjectService.getAll_progressSpec (s : Store) (status : Option String)
    (r : ProjectWithProgress) (h : r ∈ ProjectService.getAll s status) : ProgressSpecP s r := by
  unfold ProjectService.getAll at h
  rw [List.mem_map] at h
  obtain ⟨p, _, hr⟩ := h
  rw [← hr]
  exact attachProgress_spec s p

theorem ProjectService.create_progressSpec (s : Store) (d : ProjectCreateInput)
    (r : ProjectWithProgress) (s' : Store)
    (h : ProjectService.create s d = (.ok r, s')) : ProgressSpecP s' r := by
  unfold ProjectService.create at h
  split at h
  · exact absurd (congrArg Prod.fst h) (by simp)
  · split at h
    · exact absurd (congrArg Prod.fst h) (by simp)
    · next t hg =>
      have hr : t = r := by
        have := congrArg Prod.fst h
        simpa using this
      have hs : s' = _ := (congrArg Prod.snd h).symm
      rw [← hr]
      rw [hs]
      exact ProjectService.getById_progressSpec _ _ _ hg

theorem ProjectService.update_progressSpec (s : Store) (id : Nat) (d : ProjectUpdateInput)
    (r : ProjectWithProgress) (s' : Store)
    (h : ProjectService.update s id d = (.ok r, s')) : ProgressSpecP s' r := by
  unfold ProjectService.update at h
  split at h
  · exact absurd (congrArg Prod.fst h) (by simp)
  · split at h
    · exact absurd (congrArg Prod.fst h) (by simp)
    · next t hg =>
      have hr : t = r := by simpa using congrArg Prod.fst h
      have hs : s' = _ := (congrArg Prod.snd h).symm
      rw [← hr, hs]
      exact ProjectService.getById_progressSpec _ _ _ hg

theorem ProjectService.getMilestones_progressSpec (s : Store) (pid : Nat)
    (ms : List MilestoneWithProgress) (r : MilestoneWithProgress)
    (h : ProjectService.getMilestones s pid = .ok ms) (hr : r ∈ ms) : ProgressSpecM s r := by
  unfold ProjectService.getMilestones at h
  split at h
  · exact Except.noConfusion h
  · injection h with h2
    rw [← h2] at hr
    rw [List.mem_map] at hr
    obtain ⟨m, _, hm⟩ := hr
    rw [← hm]
    exact attachMilestoneProgress_spec s m

theorem ProjectService.createMilestone_progressSpec (s : Store) (d : MilestoneCreateInput)
    (r : MilestoneWithProgress) (s' : Store)
    (h : ProjectService.createMilestone s d = (.ok r, s')) : ProgressSpecM s' r := by
  unfold ProjectService.createMilestone at h
  split at h
  · exact absurd (congrArg Prod.fst h) (by simp)
  · split at h
    · exact absurd (congrArg Prod.fst h) (by simp)
    · split at h
      · exact absurd (congrArg Prod.fst h) (by simp)
      · next t hg =>
        have hr : t = r := by simpa using congrArg Prod.fst h
        have hs : s' = _ := (congrArg Prod.snd h).symm
        rw [← hr, hs]
        exact ProjectService.getMilestoneById_progressSpec _ _ _ hg

theorem ProjectService.completeMilestone_progressSpec (s : Store) (id : Nat) (undo : Bool)
    (r : MilestoneWithProgress) (s' : Store)
    (h : ProjectService.completeMilestone s id undo = (.ok r, s')) : ProgressSpecM s' r := by
  unfold ProjectService.completeMilestone at h
  split at h
  · exact absurd (congrArg Prod.fst h) (by simp)
  · split at h
    · exact absurd (congrArg Prod.fst h) (by simp)
    · next t hg =>
      have hr : t = r := by simpa using congrArg Prod.fst h
      have hs : s' = _ := (congrArg Prod.snd h).symm
      rw [← hr, hs]
      exact ProjectService.getMilestoneById_progressSpec _ _ _ hg

/-! ### TodoService operation helper lemmas -/

theorem truthy_some_ne (p : Nat) (hp : p ≠ 0) : truthy (some p) = true := by
  simp [truthy, hp]

theorem lookupTodo_id_zero (s : Store) (hids : ∀ t ∈ s.todos, 1 ≤ t.id) :
    lookupTodo s 0 = none := by
  unfold lookupTodo
  cases hf : s.todos.find? (fun t => decide (t.id = 0)) with
  | none => rfl
  | some t =>
    have hmem := List.mem_of_find?_eq_some hf
    have hpred := List.find?_some hf
    simp only [decide_eq_true_eq] at hpred
    have := hids t hmem
    omega

theorem TodoService.getById_insert (s : Store) (row : Todo)
    (hrow : row.id = s.nextTodoId) (hfresh : lookupTodo s row.id = none) :
    TodoService.getById (insertTodo s row) s.nextTodoId = .ok row := by
  unfold lookupTodo at hfresh
  rw [hrow] at hfresh
  unfold TodoService.getById lookupTodo insertTodo
  simp only
  rw [List.find?_append, hfresh]
  simp [List.find?_cons, hrow]

theorem resolveParent_no_parent (s : Store) (d : TodoCreateInput)
    (h : truthy d.parent_id = false) :
    TodoService.resolveParent s d = .ok d.project_id := by
  unfold TodoService.resolveParent
  rw [h]
  simp

theorem resolveParent_missing (s : Store) (d : TodoCreateInput) (p : Nat)
    (hp : d.parent_id = some p) (h0 : p ≠ 0) (hl : lookupTodo s p = none) :
    TodoService.resolveParent s d = .error (notFoundTodoError p) := by
  unfold TodoService.resolveParent TodoService.getById
  rw [hp, truthy_some_ne p h0]
  simp only [if_true, Option.getD_some]
  rw [hl]

theorem resolveParent_subtask (s : Store) (d : TodoCreateInput) (p : Nat) (parent : Todo)
    (hp : d.parent_id = some p) (h0 : p ≠ 0) (hl : lookupTodo s p = some parent)
    (hlev : parent.level = TodoLevel.subtask) :
    TodoService.resolveParent s d = .error maxDepthError := by
  unfold TodoService.resolveParent TodoService.getById
  rw [hp, truthy_some_ne p h0]
  simp only [if_true, Option.getD_some]
  rw [hl]
  simp [hlev]

theorem resolveParent_task (s : Store) (d : TodoCreateInput) (p : Nat) (parent : Todo)
    (hp : d.parent_id = some p) (h0 : p ≠ 0) (hl : lookupTodo s p = some parent)
    (hlev : parent.level ≠ TodoLevel.subtask) :
    TodoService.resolveParent s d = .ok parent.project_id := by
  unfold TodoService.resolveParent TodoService.getById
  rw [hp, truthy_some_ne p h0]
  simp only [if_true, Option.getD_some]
  rw [hl]
  simp [hlev]

theorem TodoService.create_of_resolve_error (s : Store) (d : TodoCreateInput) (e : ServiceError)
    (h : TodoService.resolveParent s d = .error e) :
    TodoService.create s d = (.error e, s) := by
  unfold TodoService.create
  rw [h]

/-- Characterisation of a successful `TodoService.create`: the returned
record is exactly the inserted row, the store gains exactly that row, and
the row passed the constraints. -/
theorem TodoService.create_ok_char (s : Store) (d : TodoCreateInput) (t : Todo) (s' : Store)
    (h : TodoService.create s d = (.ok t, s')) :
    ∃ rpid, TodoService.resolveParent s d = .ok rpid ∧
      t = TodoService.newTodoRow s d rpid ∧
      s' = insertTodo s t ∧
      todoCheckOk t = true ∧ todoFkOk s t = true ∧ lookupTodo s t.id = none := by
  unfold TodoService.create at h
  split at h
  · exact absurd (congrArg Prod.fst h) (by simp)
  · next rpid hres =>
    split at h
    · next hcond =>
      simp only [Bool.and_eq_true] at hcond
      obtain ⟨⟨hck, hfk⟩, hisnone⟩ := hcond
      have hfresh : lookupTodo s (TodoService.newTodoRow s d rpid).id = none :=
        Option.isNone_iff_eq_none.mp hisnone
      split at h
      · next e herr =>
        have hgood := TodoService.getById_insert s (TodoService.newTodoRow s d rpid) rfl hfresh
        rw [herr] at hgood
        exact Except.noConfusion hgood
      · next t0 hok =>
        have hgood := TodoService.getById_insert s (TodoService.newTodoRow s d rpid) rfl hfresh
        rw [hok] at hgood
        injection hgood with hteq
        have h1 : t0 = t := by simpa using congrArg Prod.fst h
        have h2 : s' = insertTodo s (TodoService.newTodoRow s d rpid) :=
          (congrArg Prod.snd h).symm
        have hrow : t = TodoService.newTodoRow s d rpid := by rw [← h1, ← hteq]
        refine ⟨rpid, hres, hrow, ?_, ?_, ?_, ?_⟩
        · rw [h2, hrow]
        · rw [hrow]; exact hck
        · rw [hrow]; exact hfk
        · rw [hrow]; exact hfresh
    · exact absurd (congrArg Prod.fst h) (by simp)

/-- A failed `TodoService.create` leaves the store untouched. -/
theorem TodoService.create_error_state (s : Store) (d : TodoCreateInput) (e : ServiceError)
    (s2 : Store) (h : TodoService.create s d = (.error e, s2)) : s2 = s := by
  unfold TodoService.create at h
  split at h
  · exact (congrArg Prod.snd h).symm
  · next rpid hres =>
    split at h
    · next hcond =>
      simp only [Bool.and_eq_true] at hcond
      obtain ⟨⟨hck, hfk⟩, hisnone⟩ := hcond
      have hfresh : lookupTodo s (TodoService.newTodoRow s d rpid).id = none :=
        Option.isNone_iff_eq_none.mp hisnone
      split at h
      · next e2 herr =>
        have hgood := TodoService.getById_insert s (TodoService.newTodoRow s d rpid) rfl hfresh
        rw [herr] at hgood
        exact Except.noConfusion hgood
      · exact absurd (congrArg Prod.fst h) (by simp)
    · exact (congrArg Prod.snd h).symm

/-- `create` only ever appends rows. -/
theorem TodoService.create_sub (s : Store) (d : TodoCreateInput) (u : Todo)
    (hu : u ∈ s.todos) : u ∈ (TodoService.create s d).2.todos := by
  rcases hc : TodoService.create s d with ⟨res, s2⟩
  cases res with
  | error e =>
    have := TodoService.create_error_state s d e s2 hc
    simp only [this]
    exact hu
  | ok t =>
    obtain ⟨rpid, _, _, hs', _, _, _⟩ := TodoService.create_ok_char s d t s2 hc
    simp only [hs', insertTodo]
    exact List.mem_append_left _ hu

/-- `createMany` only ever appends rows, whatever the outcome. -/
theorem TodoService.createMany_sub (items : List TodoCreateInput) (s : Store) (u : Todo)
    (hu : u ∈ s.todos) : u ∈ (TodoService.createMany s items).2.todos := by
  induction items generalizing s with
  | nil => exact hu
  | cons i rest ih =>
    unfold TodoService.createMany
    rcases hc : TodoService.create s i with ⟨res, s1⟩
    have hsub : u ∈ s1.todos := by
      have := TodoService.create_sub s i u hu
      rw [hc] at this
      exact this
    cases res with
    | error e => exact hsub
    | ok t =>
      simp only
      rcases hcm : TodoService.createMany s1 rest with ⟨res2, s2⟩
      have := ih s1 hsub
      rw [hcm] at this
      cases res2 with
      | error e => exact this
      | ok ts => exact this

theorem lookupTodo_patch (s : Store) (id : Nat) (d : TodoUpdateInput) :
    lookupTodo (TodoService.patchTodoStore s id d) id =
      (lookupTodo s id).map
        (fun u => if u.id = id then TodoService.applyTodoPatch u d s.now else u) := by
  unfold lookupTodo TodoService.patchTodoStore
  exact find?_map_preserving _ _ _ (fun a => by
    by_cases ha : a.id = id <;> simp [ha, TodoService.applyTodoPatch])

theorem lookupProject_patch (s : Store) (id : Nat) (d : ProjectUpdateInput) :
    lookupProject (ProjectService.patchProjectStore s id d) id =
      (lookupProject s id).map
        (fun p => if p.id = id then ProjectService.applyProjectPatch p d s.now else p) := by
  unfold lookupProject ProjectService.patchProjectStore
  exact find?_map_preserving _ _ _ (fun a => by
    by_cases ha : a.id = id <;> simp [ha, ProjectService.applyProjectPatch])

theorem lookupMilestone_setStatus (s : Store) (id : Nat) (st : MilestoneStatus) :
    lookupMilestone (ProjectService.setMilestoneStatus s id st) id =
      (lookupMilestone s id).map
        (fun m => if m.id = id then { m with status := st } else m) := by
  unfold lookupMilestone ProjectService.setMilestoneStatus
  exact find?_map_preserving _ _ _ (fun a => by
    by_cases ha : a.id = id <;> simp [ha])

/-! ### Listing membership and cascade lemmas -/

theorem TodoService.getAll_sub (s : Store) (o : TodoService.ListOptions) (t : Todo)
    (h : t ∈ (TodoService.getAll s o).todos) : t ∈ s.todos := by
  unfold TodoService.getAll at h
  rcases o with ⟨ost, opid, oparent, olev⟩
  dsimp only at h
  rw [mem_sortLe] at h
  cases ost <;> cases opid <;> rcases oparent with _ | (_ | _) <;> cases olev <;>
    simp only [List.mem_filter] at h <;> tauto

theorem TodoService.getStandalone_sub (s : Store) (status : Option String) (t : Todo)
    (h : t ∈ (TodoService.getStandalone s status).todos) : t ∈ s.todos := by
  unfold TodoService.getStandalone at h
  dsimp only at h
  rw [mem_sortLe] at h
  cases status <;> simp only [List.mem_filter] at h <;> tauto

theorem TodoService.getProjectTree_node (s : Store) (pid : Nat) (node : TodoWithChildren)
    (h : node ∈ TodoService.getProjectTree s pid) :
    node.toTodo ∈ s.todos ∧ ∀ u ∈ node.subtasks, u ∈ s.todos := by
  unfold TodoService.getProjectTree at h
  dsimp only at h
  rw [List.mem_map] at h
  obtain ⟨task, htask, hnode⟩ := h
  rw [mem_sortLe, List.mem_filter] at htask
  constructor
  · rw [← hnode]
    exact htask.1
  · intro u hu
    rw [← hnode] at hu
    simp only at hu
    rw [mem_sortLe, List.mem_filter] at hu
    exact hu.1

theorem cascade_acc_sub (todos : List Todo) (fuel : Nat) (acc : List Nat) :
    acc ⊆ TodoService.cascadeIds todos fuel acc := by
  induction fuel generalizing acc with
  | zero => exact fun x hx => hx
  | succ n ih =>
    unfold TodoService.cascadeIds
    dsimp only
    split
    · exact fun x hx => hx
    · exact fun x hx => ih (acc ++ TodoService.childIdsOf todos acc) (List.mem_append_left _ hx)

theorem child_mem_cascade (todos : List Todo) (id : Nat) (t : Todo)
    (ht : t ∈ todos) (hp : t.parent_id = some id) (fuel : Nat) (hf : 1 ≤ fuel) :
    t.id ∈ TodoService.cascadeIds todos fuel [id] := by
  cases fuel with
  | zero => omega
  | succ n =>
    unfold TodoService.cascadeIds
    dsimp only
    by_cases hid : t.id = id
    · have hacc : t.id ∈ ([id] : List Nat) := by simp [hid]
      split
      · exact hacc
      · exact cascade_acc_sub todos n _ (List.mem_append_left _ hacc)
    · have hmem : t.id ∈ TodoService.childIdsOf todos [id] := by
        unfold TodoService.childIdsOf
        rw [List.mem_map]
        refine ⟨t, ?_, rfl⟩
        rw [List.mem_filter]
        refine ⟨ht, ?_⟩
        simp [hp, List.contains, hid]
      split
      · next hemp => rw [hemp] at hmem; cases hmem
      · exact cascade_acc_sub todos n _ (List.mem_append_right _ hmem)

/-- After `deleteTodoStore s id`, no surviving row has id `id` and no
surviving row has `id` as its parent. -/
theorem deleteTodoStore_clears (s : Store) (id : Nat) (t : Todo)
    (h : t ∈ (TodoService.deleteTodoStore s id).todos) :
    t ∈ s.todos ∧ t.id ≠ id ∧ t.parent_id ≠ some id := by
  unfold TodoService.deleteTodoStore at h
  dsimp only at h
  rw [List.mem_filter] at h
  obtain ⟨hmem, hpred⟩ := h
  simp only [Bool.not_eq_true'] at hpred
  have hnot : t.id ∉ TodoService.cascadeIds s.todos (s.todos.length + 1) [id] := by
    simp_all
  refine ⟨hmem, ?_, ?_⟩
  · intro heq
    exact hnot (cascade_acc_sub _ _ _ (by simp [heq]))
  · intro hpar
    exact hnot (child_mem_cascade s.todos id t hmem hpar _ (by omega))

/-! ### Reachability and the level/parent invariant -/

/-- The level/parent coupling stated in §3 of the spec:
`level = subtask` iff a parent reference is present, `level = task` iff
absent. -/
def LevelInv (t : Todo) : Prop :=
  (t.level = TodoLevel.subtask ↔ t.parent_id ≠ none) ∧
  (t.level = TodoLevel.task ↔ t.parent_id = none)

/-- Auxiliary well-formedness carried through the induction: stored row
ids and the rowid counter are positive (`AUTOINCREMENT` starts at 1). -/
def TodoIdsOk (s : Store) : Prop :=
  (∀ t ∈ s.todos, 1 ≤ t.id) ∧ 1 ≤ s.nextTodoId

/-- Store states reachable from a fresh database by any sequence of
`TodoService` mutating operations, with the clock free to advance
between operations. -/
inductive Reachable : Store → Prop where
  | init (now : Nat) :
      Reachable { projects := [], milestones := [], todos := [],
                  nextProjectId := 1, nextMilestoneId := 1, nextTodoId := 1, now := now }
  | tick (s : Store) (n : Nat) : Reachable s → Reachable { s with now := n }
  | createStep (s : Store) (d : TodoCreateInput) :
      Reachable s → Reachable (TodoService.create s d).2
  | createManyStep (s : Store) (items : List TodoCreateInput) :
      Reachable s → Reachable (TodoService.createMany s items).2
  | updateStep (s : Store) (id : Nat) (d : TodoUpdateInput) :
      Reachable s → Reachable (TodoService.update s id d).2
  | updateStatusStep (s : Store) (id : Nat) (st : TodoStatus) :
      Reachable s → Reachable (TodoService.updateStatus s id st).2
  | deleteStep (s : Store) (id : Nat) :
      Reachable s → Reachable (TodoService.delete s id).2

/-- Reachability restricted to update inputs that never supply
`parent_id` (the amended hypothesis). -/
inductive ReachableNR : Store → Prop where
  | init (now : Nat) :
      ReachableNR { projects := [], milestones := [], todos := [],
                    nextProjectId := 1, nextMilestoneId := 1, nextTodoId := 1, now := now }
  | tick (s : Store) (n : Nat) : ReachableNR s → ReachableNR { s with now := n }
  | createStep (s : Store) (d : TodoCreateInput) :
      ReachableNR s → ReachableNR (TodoService.create s d).2
  | createManyStep (s : Store) (items : List TodoCreateInput) :
      ReachableNR s → ReachableNR (TodoService.createMany s items).2
  | updateStep (s : Store) (id : Nat) (d : TodoUpdateInput) :
      d.parent_id = none → ReachableNR s → ReachableNR (TodoService.update s id d).2
  | updateStatusStep (s : Store) (id : Nat) (st : TodoStatus) :
      ReachableNR s → ReachableNR (TodoService.updateStatus s id st).2
  | deleteStep (s : Store) (id : Nat) :
      ReachableNR s → ReachableNR (TodoService.delete s id).2

/-- The invariant bundle preserved by every restricted step. -/
def StoreInv (s : Store) : Prop :=
  TodoIdsOk s ∧ ∀ t ∈ s.todos, LevelInv t

theorem truthy_true_ne_none (o : Option Nat) (h : truthy o = true) : o ≠ none := by
  cases o with
  | none => simp [truthy] at h
  | some n => simp

theorem create_preserves_inv (s : Store) (d : TodoCreateInput) (h : StoreInv s) :
    StoreInv (TodoService.create s d).2 := by
  obtain ⟨hids, hinv⟩ := h
  rcases hc : TodoService.create s d with ⟨res, s2⟩
  simp only
  cases res with
  | error e =>
    rw [TodoService.create_error_state s d e s2 hc]
    exact ⟨hids, hinv⟩
  | ok t =>
    obtain ⟨rpid, hres, hrow, hs', hck, hfk, hfresh⟩ := TodoService.create_ok_char s d t s2 hc
    rw [hs']
    have hrowinv : LevelInv t := by
      cases htr : truthy d.parent_id with
      | true =>
        have hne : d.parent_id ≠ none := truthy_true_ne_none _ htr
        constructor
        · constructor
          · intro _
            rw [hrow]
            simpa [TodoService.newTodoRow] using hne
          · intro _
            rw [hrow]
            simp [TodoService.newTodoRow, htr]
        · constructor
          · intro hlev
            rw [hrow] at hlev
            simp [TodoService.newTodoRow, htr] at hlev
          · intro hp
            rw [hrow] at hp
            simp only [TodoService.newTodoRow] at hp
            exact absurd hp hne
      | false =>
        have hnone : d.parent_id = none := by
          cases hdp : d.parent_id with
          | none => rfl
          | some p =>
            have hp0 : p = 0 := by
              rw [hdp] at htr
              simpa [truthy] using htr
            exfalso
            unfold todoFkOk at hfk
            simp only [Bool.and_eq_true] at hfk
            have hparent := hfk.1.2
            rw [hrow] at hparent
            simp only [TodoService.newTodoRow] at hparent
            rw [hdp, hp0] at hparent
            simp only at hparent
            rw [lookupTodo_id_zero s hids.1] at hparent
            simp at hparent
        constructor
        · constructor
          · intro hlev
            rw [hrow] at hlev
            simp [TodoService.newTodoRow, htr] at hlev
          · intro hp
            rw [hrow] at hp
            simp only [TodoService.newTodoRow] at hp
            exact absurd hnone hp
        · constructor
          · intro _
            rw [hrow]
            simp only [TodoService.newTodoRow]
            exact hnone
          · intro _
            rw [hrow]
            simp [TodoService.newTodoRow, htr]
    constructor
    · constructor
      · intro u hu
        simp only [TodoService.insertTodo, List.mem_append, List.mem_singleton] at hu
        cases hu with
        | inl h0 => exact hids.1 u h0
        | inr h0 =>
          rw [h0, hrow]
          simp only [TodoService.newTodoRow]
          exact hids.2
      · simp only [TodoService.insertTodo]
        omega
    · intro u hu
      simp only [TodoService.insertTodo, List.mem_append, List.mem_singleton] at hu
      cases hu with
      | inl h0 => exact hinv u h0
      | inr h0 => rw [h0]; exact hrowinv

theorem createMany_preserves_inv (items : List TodoCreateInput) (s : Store) (h : StoreInv s) :
    StoreInv (TodoService.createMany s items).2 := by
  induction items generalizing s with
  | nil => exact h
  | cons i rest ih =>
    unfold TodoService.createMany
    rcases hc : TodoService.create s i with ⟨res, s1⟩
    have h1 : StoreInv s1 := by
      have := create_preserves_inv s i h
      rw [hc] at this
      exact this
    cases res with
    | error e => exact h1
    | ok t =>
      simp only
      rcases hcm : TodoService.createMany s1 rest with ⟨res2, s2⟩
      have := ih s1 h1
      rw [hcm] at this
      cases res2 with
      | error e => exact this
      | ok ts => exact this

theorem patch_preserves_inv (s : Store) (id : Nat) (d : TodoUpdateInput)
    (hnr : d.parent_id = none) (h : StoreInv s) :
    StoreInv (TodoService.patchTodoStore s id d) := by
  obtain ⟨hids, hinv⟩ := h
  unfold TodoService.patchTodoStore
  constructor
  · constructor
    · intro u hu
      rw [List.mem_map] at hu
      obtain ⟨v, hv, huv⟩ := hu
      have hvid := hids.1 v hv
      rw [← huv]
      split
      · simpa [TodoService.applyTodoPatch] using hvid
      · exact hvid
    · exact hids.2
  · intro u hu
    rw [List.mem_map] at hu
    obtain ⟨v, hv, huv⟩ := hu
    have hvinv := hinv v hv
    rw [← huv]
    split
    · simpa [TodoService.applyTodoPatch, LevelInv, hnr] using hvinv
    · exact hvinv

theorem update_preserves_inv (s : Store) (id : Nat) (d : TodoUpdateInput)
    (hnr : d.parent_id = none) (h : StoreInv s) :
    StoreInv (TodoService.update s id d).2 := by
  unfold TodoService.update
  split
  · exact h
  · split
    · split
      · exact patch_preserves_inv s id d hnr h
      · exact patch_preserves_inv s id d hnr h
    · exact h

theorem delete_preserves_inv (s : Store) (id : Nat) (h : StoreInv s) :
    StoreInv (TodoService.delete s id).2 := by
  obtain ⟨hids, hinv⟩ := h
  unfold TodoService.delete
  split
  · exact ⟨hids, hinv⟩
  · simp only
    unfold TodoService.deleteTodoStore
    constructor
    · constructor
      · intro u hu
        rw [List.mem_filter] at hu
        exact hids.1 u hu.1
      · exact hids.2
    · intro u hu
      rw [List.mem_filter] at hu
      exact hinv u hu.1

theorem reachableNR_inv (s : Store) (h : ReachableNR s) : StoreInv s := by
  induction h with
  | init now => exact ⟨⟨fun t ht => absurd ht (List.not_mem_nil t), Nat.le_refl 1⟩, fun t ht => absurd ht (List.not_mem_nil t)⟩
  | tick s n _ ih => exact ih
  | createStep s d _ ih => exact create_preserves_inv s d ih
  | createManyStep s items _ ih => exact createMany_preserves_inv items s ih
  | updateStep s id d hnr _ ih => exact update_preserves_inv s id d hnr ih
  | updateStatusStep s id st _ ih => exact update_preserves_inv s id _ rfl ih
  | deleteStep s id _ ih => exact delete_preserves_inv s id ih

/-! ### Update characterisation helpers -/

theorem TodoService.getById_of_lookup (s : Store) (id : Nat) (t : Todo)
    (hl : lookupTodo s id = some t) : TodoService.getById s id = .ok t := by
  unfold TodoService.getById
  rw [hl]

theorem TodoService.getById_ok_lookup (s : Store) (id : Nat) (t : Todo)
    (h : TodoService.getById s id = .ok t) : lookupTodo s id = some t := by
  unfold TodoService.getById at h
  cases hx : lookupTodo s id with
  | none => rw [hx] at h; exact Except.noConfusion h
  | some u =>
    rw [hx] at h
    injection h with h2
    rw [h2]

theorem lookupTodo_id (s : Store) (id : Nat) (t : Todo)
    (hl : lookupTodo s id = some t) : t.id = id := by
  unfold lookupTodo at hl
  have := List.find?_some hl
  simpa using this

theorem lookupProject_id (s : Store) (id : Nat) (p : Project)
    (hl : lookupProject s id = some p) : p.id = id := by
  unfold lookupProject at hl
  have := List.find?_some hl
  simpa using this

theorem lookupMilestone_id (s : Store) (id : Nat) (m : Milestone)
    (hl : lookupMilestone s id = some m) : m.id = id := by
  unfold lookupMilestone at hl
  have := List.find?_some hl
  simpa using this

/-- Characterisation of a successful `TodoService.update`. -/
theorem TodoService.update_ok_char (s : Store) (id : Nat) (d : TodoUpdateInput) (r : Todo)
    (s' : Store) (h : TodoService.update s id d = (.ok r, s')) :
    ∃ t0, lookupTodo s id = some t0 ∧ t0.id = id ∧
      r = TodoService.applyTodoPatch t0 d s.now ∧ s' = TodoService.patchTodoStore s id d := by
  unfold TodoService.update at h
  split at h
  · exact absurd (congrArg Prod.fst h) (by simp)
  · next t0 hget =>
    have hl : lookupTodo s id = some t0 := TodoService.getById_ok_lookup s id t0 hget
    have hid : t0.id = id := lookupTodo_id s id t0 hl
    split at h
    · have hlook1 : lookupTodo (TodoService.patchTodoStore s id d) id =
          some (TodoService.applyTodoPatch t0 d s.now) := by
        rw [lookupTodo_patch, hl]
        simp [hid]
      split at h
      · next e herr =>
        unfold TodoService.getById at herr
        rw [hlook1] at herr
        exact Except.noConfusion herr
      · next r0 hok =>
        unfold TodoService.getById at hok
        rw [hlook1] at hok
        injection hok with h2
        have hr : r0 = r := by simpa using congrArg Prod.fst h
        have hs : s' = _ := (congrArg Prod.snd h).symm
        exact ⟨t0, hl, hid, by rw [← hr, ← h2], hs⟩
    · exact absurd (congrArg Prod.fst h) (by simp)

/-- A successful `ProjectService.update` is fully determined by the
looked-up row: the row is patched, the record re-fetched with progress. -/
theorem ProjectService.update_ok (s : Store) (id : Nat) (d : ProjectUpdateInput) (p0 : Project)
    (hl : lookupProject s id = some p0) :
    ProjectService.update s id d =
      (.ok (ProjectService.attachProgress (ProjectService.patchProjectStore s id d)
              (ProjectService.applyProjectPatch p0 d s.now)),
       ProjectService.patchProjectStore s id d) := by
  have hid : p0.id = id := lookupProject_id s id p0 hl
  have hget : ProjectService.getById s id = .ok (ProjectService.attachProgress s p0) := by
    unfold ProjectService.getById
    rw [hl]
  have hlook1 : lookupProject (ProjectService.patchProjectStore s id d) id =
      some (ProjectService.applyProjectPatch p0 d s.now) := by
    rw [lookupProject_patch, hl]
    simp [hid]
  have hget1 : ProjectService.getById (ProjectService.patchProjectStore s id d) id =
      .ok (ProjectService.attachProgress (ProjectService.patchProjectStore s id d)
            (ProjectService.applyProjectPatch p0 d s.now)) := by
    unfold ProjectService.getById
    rw [hlook1]
  simp only [ProjectService.update, hget, hget1]

/-- Rows other than the patched one pass through `patchTodoStore`
unchanged, in both directions. -/
theorem patchTodoStore_frame (s : Store) (id : Nat) (d : TodoUpdateInput) (u : Todo) :
    (u ∈ s.todos → u.id ≠ id → u ∈ (TodoService.patchTodoStore s id d).todos) ∧
    (u ∈ (TodoService.patchTodoStore s id d).todos → u.id ≠ id → u ∈ s.todos) := by
  unfold TodoService.patchTodoStore
  constructor
  · intro hu hne
    rw [List.mem_map]
    exact ⟨u, hu, by rw [if_neg hne]⟩
  · intro hu hne
    rw [List.mem_map] at hu
    obtain ⟨v, hv, huv⟩ := hu
    by_cases hvid : v.id = id
    · exfalso
      apply hne
      rw [← huv, if_pos hvid]
      simpa [TodoService.applyTodoPatch] using hvid
    · rw [← huv, if_neg hvid]
      exact hv

/-- Rows other than the patched one pass through `patchProjectStore`
unchanged, in both directions. -/
theorem patchProjectStore_frame (s : Store) (id : Nat) (d : ProjectUpdateInput) (q : Project) :
    (q ∈ s.projects → q.id ≠ id → q ∈ (ProjectService.patchProjectStore s id d).projects) ∧
    (q ∈ (ProjectService.patchProjectStore s id d).projects → q.id ≠ id → q ∈ s.projects) := by
  unfold ProjectService.patchProjectStore
  constructor
  · intro hq hne
    rw [List.mem_map]
    exact ⟨q, hq, by rw [if_neg hne]⟩
  · intro hq hne
    rw [List.mem_map] at hq
    obtain ⟨v, hv, hvq⟩ := hq
    by_cases hvid : v.id = id
    · exfalso
      apply hne
      rw [← hvq, if_pos hvid]
      simpa [ProjectService.applyProjectPatch] using hvid
    · rw [← hvq, if_neg hvid]
      exact hv

/-- The milestone status write is idempotent on the store. -/
theorem setMilestoneStatus_idem (s : Store) (id : Nat) (st : MilestoneStatus) :
    ProjectService.setMilestoneStatus (ProjectService.setMilestoneStatus s id st) id st =
      ProjectService.setMilestoneStatus s id st := by
  unfold ProjectService.setMilestoneStatus
  simp only [List.map_map]
  have hcomp : ((fun m : Milestone => if m.id = id then { m with status := st } else m) ∘
      (fun m : Milestone => if m.id = id then { m with status := st } else m)) =
      (fun m : Milestone => if m.id = id then { m with status := st } else m) := by
    funext m
    by_cases hm : m.id = id <;> simp [Function.comp, hm]
  rw [hcomp]

/-! ### Concrete sample data for witnesses -/

/-- A freshly initialised database. -/
def emptyStore : Store :=
  { projects := [], milestones := [], todos := [],
    nextProjectId := 1, nextMilestoneId := 1, nextTodoId := 1, now := 0 }

def sampleProject : Project :=
  { id := 1, name := "P", description := none, status := ProjectStatus.active,
    created_at := 0, updated_at := 0 }

def sampleMilestone : Milestone :=
  { id := 1, project_id := 1, title := "M", target_date := "2026-01-01",
    status := MilestoneStatus.pending, created_at := 0 }

def sampleTodoDone : Todo :=
  { id := 1, title := "a", description := none, status := TodoStatus.completed, priority := 3,
    due_date := none, project_id := some 1, parent_id := none, milestone_id := some 1,
    level := TodoLevel.task, created_at := 0, updated_at := 0 }

def sampleTodoPend1 : Todo :=
  { id := 2, title := "b", description := none, status := TodoStatus.pending, priority := 3,
    due_date := none, project_id := some 1, parent_id := none, milestone_id := some 1,
    level := TodoLevel.task, created_at := 0, updated_at := 0 }

def sampleTodoPend2 : Todo :=
  { id := 3, title := "c", description := none, status := TodoStatus.pending, priority := 3,
    due_date := none, project_id := some 1, parent_id := none, milestone_id := none,
    level := TodoLevel.task, created_at := 0, updated_at := 0 }

/-- One project with 3 linked todos (1 completed) and one milestone with
2 linked todos (1 completed): the spec's 33% / 50% examples. -/
def c1Store : Store :=
  { projects := [sampleProject], milestones := [sampleMilestone],
    todos := [sampleTodoDone, sampleTodoPend1, sampleTodoPend2],
    nextProjectId := 2, nextMilestoneId := 2, nextTodoId := 4, now := 5 }

/-! ### Claims -/

/-- **C8.** For every id that matches no stored Project (resp. no stored
Todo), `ProjectService.getById` (resp. `TodoService.getById`) fails with
the NotFound error kind (`PROJECT_NOT_FOUND` / `TODO_NOT_FOUND`, HTTP
status 404); it never returns a success value for such an id. -/
theorem C8_getById_notFound :
    (∀ (s : Store) (id : Nat), lookupProject s id = none →
      ProjectService.getById s id = .error (notFoundProjectError id) ∧
      (notFoundProjectError id).statusCode = 404 ∧
      (notFoundProjectError id).code = "PROJECT_NOT_FOUND" ∧
      ∀ r, ProjectService.getById s id ≠ .ok r) ∧
    (∀ (s : Store) (id : Nat), lookupTodo s id = none →
      TodoService.getById s id = .error (notFoundTodoError id) ∧
      (notFoundTodoError id).statusCode = 404 ∧
      (notFoundTodoError id).code = "TODO_NOT_FOUND" ∧
      ∀ r, TodoService.getById s id ≠ .ok r) := by
  constructor
  · intro s id h
    have hg : ProjectService.getById s id = .error (notFoundProjectError id) := by
      unfold ProjectService.getById
      rw [h]
    refine ⟨hg, rfl, rfl, fun r hr => ?_⟩
    rw [hg] at hr
    exact Except.noConfusion hr
  · intro s id h
    have hg : TodoService.getById s id = .error (notFoundTodoError id) := by
      unfold TodoService.getById
      rw [h]
    refine ⟨hg, rfl, rfl, fun r hr => ?_⟩
    rw [hg] at hr
    exact Except.noConfusion hr

/-- Witness for C8 at a concrete store and id. -/
theorem C8_witness :
    ProjectService.getById emptyStore 1 = .error (notFoundProjectError 1) ∧
    TodoService.getById emptyStore 1 = .error (notFoundTodoError 1) :=
  ⟨(C8_getById_notFound.1 emptyStore 1 rfl).1, (C8_getById_notFound.2 emptyStore 1 rfl).1⟩

/-- **C3.** Creating a Todo whose `parent_id` refers to an existing
Subtask fails with the `MAX_DEPTH_EXCEEDED` kind (HTTP 400) and leaves
the store unchanged (nothing inserted); if `parent_id` refers to no
existing Todo, create fails with `TODO_NOT_FOUND` and leaves the store
unchanged.  (Ids are positive in this system, hence `p ≠ 0`.) -/
theorem C3_create_depth_notFound :
    (∀ (s : Store) (d : TodoCreateInput) (p : Nat) (parent : Todo),
      d.parent_id = some p → p ≠ 0 → lookupTodo s p = some parent →
      parent.level = TodoLevel.subtask →
      TodoService.create s d = (.error maxDepthError, s) ∧
      maxDepthError.code = "MAX_DEPTH_EXCEEDED" ∧ maxDepthError.statusCode = 400) ∧
    (∀ (s : Store) (d : TodoCreateInput) (p : Nat),
      d.parent_id = some p → p ≠ 0 → lookupTodo s p = none →
      TodoService.create s d = (.error (notFoundTodoError p), s) ∧
      (notFoundTodoError p).code = "TODO_NOT_FOUND") := by
  constructor
  · intro s d p parent hp h0 hl hlev
    exact ⟨TodoService.create_of_resolve_error s d _
      (resolveParent_subtask s d p parent hp h0 hl hlev), rfl, rfl⟩
  · intro s d p hp h0 hl
    exact ⟨TodoService.create_of_resolve_error s d _
      (resolveParent_missing s d p hp h0 hl), rfl⟩

/-- A lone subtask row used as a forbidden parent. -/
def c3Sub : Todo :=
  { id := 1, title := "sub", description := none, status := TodoStatus.pending, priority := 3,
    due_date := none, project_id := none, parent_id := some 9, milestone_id := none,
    level := TodoLevel.subtask, created_at := 0, updated_at := 0 }

def c3Store : Store :=
  { projects := [], milestones := [], todos := [c3Sub],
    nextProjectId := 1, nextMilestoneId := 1, nextTodoId := 2, now := 0 }

/-- Witness for C3: both failure modes at concrete inputs. -/
theorem C3_witness :
    TodoService.create c3Store { title := "x", parent_id := some 1 } =
      (.error maxDepthError, c3Store) ∧
    TodoService.create c3Store { title := "y", parent_id := some 5 } =
      (.error (notFoundTodoError 5), c3Store) :=
  ⟨(C3_create_depth_notFound.1 c3Store { title := "x", parent_id := some 1 } 1 c3Sub
      rfl (by decide) rfl rfl).1,
   (C3_create_depth_notFound.2 c3Store { title := "y", parent_id := some 5 } 5
      rfl (by decide) rfl).1⟩

/-- **C2.** When `parent_id` is set (ids are positive) and refers to an
existing Todo that is not a subtask, any Todo returned by
`TodoService.create` has `level = subtask` and `project_id` equal to the
parent's `project_id`, whatever `project_id` the input carried; and when
the inserted row additionally passes the table constraints, `create`
succeeds and returns exactly that inherited row. -/
theorem C2_create_inherits_parent :
    (∀ (s : Store) (d : TodoCreateInput) (p : Nat) (parent t : Todo) (s' : Store),
      d.parent_id = some p → p ≠ 0 → lookupTodo s p = some parent →
      parent.level ≠ TodoLevel.subtask →
      TodoService.create s d = (.ok t, s') →
      t.level = TodoLevel.subtask ∧ t.project_id = parent.project_id) ∧
    (∀ (s : Store) (d : TodoCreateInput) (p : Nat) (parent : Todo),
      d.parent_id = some p → p ≠ 0 → lookupTodo s p = some parent →
      parent.level ≠ TodoLevel.subtask →
      todoCheckOk (TodoService.newTodoRow s d parent.project_id) = true →
      todoFkOk s (TodoService.newTodoRow s d parent.project_id) = true →
      lookupTodo s s.nextTodoId = none →
      TodoService.create s d =
        (.ok (TodoService.newTodoRow s d parent.project_id),
         TodoService.insertTodo s (TodoService.newTodoRow s d parent.project_id))) := by
  constructor
  · intro s d p parent t s' hp h0 hl hlev hok
    obtain ⟨rpid, hres, hrow, _, _, _, _⟩ := TodoService.create_ok_char s d t s' hok
    have hres2 := resolveParent_task s d p parent hp h0 hl hlev
    rw [hres] at hres2
    injection hres2 with hrpid
    constructor
    · rw [hrow]
      simp [TodoService.newTodoRow, hp, truthy_some_ne p h0]
    · rw [hrow]
      simp only [TodoService.newTodoRow]
      exact hrpid
  · intro s d p parent hp h0 hl hlev hck hfk hfresh
    unfold TodoService.create
    rw [resolveParent_task s d p parent hp h0 hl hlev]
    have hid : (TodoService.newTodoRow s d parent.project_id).id = s.nextTodoId := rfl
    have hcond : (todoCheckOk (TodoService.newTodoRow s d parent.project_id)
        && todoFkOk s (TodoService.newTodoRow s d parent.project_id)
        && (lookupTodo s (TodoService.newTodoRow s d parent.project_id).id).isNone) = true := by
      rw [hid, hck, hfk, hfresh]
      rfl
    have hfresh2 : lookupTodo s (TodoService.newTodoRow s d parent.project_id).id = none := by
      rw [hid]
      exact hfresh
    simp only [hcond, if_true,
      TodoService.getById_insert s (TodoService.newTodoRow s d parent.project_id) rfl hfresh2]

def c2Project : Project :=
  { id := 7, name := "Q", description := none, status := ProjectStatus.active,
    created_at := 0, updated_at := 0 }

def c2Task : Todo :=
  { id := 1, title := "t", description := none, status := TodoStatus.pending, priority := 3,
    due_date := none, project_id := some 7, parent_id := none, milestone_id := none,
    level := TodoLevel.task, created_at := 0, updated_at := 0 }

def c2Store : Store :=
  { projects := [c2Project], milestones := [], todos := [c2Task],
    nextProjectId := 8, nextMilestoneId := 1, nextTodoId := 2, now := 3 }

/-- The input supplies `project_id = 99`; the parent's `project_id = 7`
must win. -/
def c2Input : TodoCreateInput :=
  { title := "sub", project_id := some 99, parent_id := some 1 }

/-- Witness for C2: the created subtask inherits `project_id = 7`,
discarding the supplied 99. -/
theorem C2_witness :
    TodoService.create c2Store c2Input =
      (.ok (TodoService.newTodoRow c2Store c2Input (some 7)),
       TodoService.insertTodo c2Store (TodoService.newTodoRow c2Store c2Input (some 7))) ∧
    (TodoService.newTodoRow c2Store c2Input (some 7)).level = TodoLevel.subtask ∧
    (TodoService.newTodoRow c2Store c2Input (some 7)).project_id = some 7 := by
  have h2 := C2_create_inherits_parent.2 c2Store c2Input 1 c2Task rfl (by decide) rfl
    (by decide) (by decide) (by decide) rfl
  have h1 := C2_create_inherits_parent.1 c2Store c2Input 1 c2Task
    (TodoService.newTodoRow c2Store c2Input (some 7))
    (TodoService.insertTodo c2Store (TodoService.newTodoRow c2Store c2Input (some 7)))
    rfl (by decide) rfl (by decide) h2
  exact ⟨h2, h1.1, h1.2⟩

/-- **C9.** For every existing Milestone and every `undo` flag,
`completeMilestone` succeeds, sets the status to `reached` (or `pending`
when `undo`), and repeating the call with the same flag returns the same
record and the same store (idempotence, no error). -/
theorem C9_completeMilestone_idempotent (s : Store) (id : Nat) (undo : Bool) (m : Milestone)
    (hl : lookupMilestone s id = some m) :
    ∃ r s', ProjectService.completeMilestone s id undo = (.ok r, s') ∧
      r.status = (if undo then MilestoneStatus.pending else MilestoneStatus.reached) ∧
      ProjectService.completeMilestone s' id undo = (.ok r, s') := by
  have hmid : m.id = id := lookupMilestone_id s id m hl
  have hget : ProjectService.getMilestoneById s id =
      .ok (ProjectService.attachMilestoneProgress s m) := by
    unfold ProjectService.getMilestoneById
    rw [hl]
  have hlook1 : lookupMilestone
      (ProjectService.setMilestoneStatus s id
        (if undo then MilestoneStatus.pending else MilestoneStatus.reached)) id =
      some { m with status := (if undo then MilestoneStatus.pending else MilestoneStatus.reached) } := by
    rw [lookupMilestone_setStatus, hl]
    simp [hmid]
  have hget1 : ProjectService.getMilestoneById
      (ProjectService.setMilestoneStatus s id
        (if undo then MilestoneStatus.pending else MilestoneStatus.reached)) id =
      .ok (ProjectService.attachMilestoneProgress
        (ProjectService.setMilestoneStatus s id
          (if undo then MilestoneStatus.pending else MilestoneStatus.reached))
        { m with status := (if undo then MilestoneStatus.pending else MilestoneStatus.reached) }) := by
    unfold ProjectService.getMilestoneById
    rw [hlook1]
  refine ⟨ProjectService.attachMilestoneProgress
      (ProjectService.setMilestoneStatus s id
        (if undo then MilestoneStatus.pending else MilestoneStatus.reached))
      { m with status := (if undo then MilestoneStatus.pending else MilestoneStatus.reached) },
    ProjectService.setMilestoneStatus s id
      (if undo then MilestoneStatus.pending else MilestoneStatus.reached),
    ?_, ?_, ?_⟩
  · simp only [ProjectService.completeMilestone, hget, hget1]
  · rfl
  · simp only [ProjectService.completeMilestone, hget1, setMilestoneStatus_idem, hget1]

/-- Witness for C9 at a concrete store. -/
theorem C9_witness :
    ∃ r s', ProjectService.completeMilestone c1Store 1 false = (.ok r, s') ∧
      r.status = (if false then MilestoneStatus.pending else MilestoneStatus.reached) ∧
      ProjectService.completeMilestone s' 1 false = (.ok r, s') :=
  C9_completeMilestone_idempotent c1Store 1 false sampleMilestone rfl

/-- **C1.** Every project (resp. milestone) record returned with
progress by a `ProjectService` operation carries
`total = count(todos linked by project_id)` (resp. `milestone_id`),
`completed = count(linked ∧ status = completed)`, and
`progress_percent = round-half-up(completed / total * 100)` when
`total > 0`, else `0` (`ProgressSpecP` / `ProgressSpecM`); in particular
1 completed of 3 total gives 33 and 1 completed of 2 total gives 50. -/
theorem C1_progress_formula :
    (∀ (s : Store) (p : Project), ProgressSpecP s (ProjectService.attachProgress s p)) ∧
    (∀ (s : Store) (m : Milestone),
      ProgressSpecM s (ProjectService.attachMilestoneProgress s m)) ∧
    (∀ (s : Store) (status : Option String) (r : ProjectWithProgress),
      r ∈ ProjectService.getAll s status → ProgressSpecP s r) ∧
    (∀ (s : Store) (id : Nat) (r : ProjectWithProgress),
      ProjectService.getById s id = .ok r → ProgressSpecP s r) ∧
    (∀ (s : Store) (d : ProjectCreateInput) (r : ProjectWithProgress) (s' : Store),
      ProjectService.create s d = (.ok r, s') → ProgressSpecP s' r) ∧
    (∀ (s : Store) (id : Nat) (d : ProjectUpdateInput) (r : ProjectWithProgress) (s' : Store),
      ProjectService.update s id d = (.ok r, s') → ProgressSpecP s' r) ∧
    (∀ (s : Store) (pid : Nat) (ms : List MilestoneWithProgress) (r : MilestoneWithProgress),
      ProjectService.getMilestones s pid = .ok ms → r ∈ ms → ProgressSpecM s r) ∧
    (∀ (s : Store) (id : Nat) (r : MilestoneWithProgress),
      ProjectService.getMilestoneById s id = .ok r → ProgressSpecM s r) ∧
    (∀ (s : Store) (d : MilestoneCreateInput) (r : MilestoneWithProgress) (s' : Store),
      ProjectService.createMilestone s d = (.ok r, s') → ProgressSpecM s' r) ∧
    (∀ (s : Store) (id : Nat) (undo : Bool) (r : MilestoneWithProgress) (s' : Store),
      ProjectService.completeMilestone s id undo = (.ok r, s') → ProgressSpecM s' r) ∧
    (ProjectService.getById c1Store 1).map
      (fun r => (r.total_tasks, r.completed_tasks, r.progress_percent)) = .ok (3, 1, 33) ∧
    (ProjectService.getMilestoneById c1Store 1).map
      (fun r => (r.total_tasks, r.completed_tasks, r.progress_percent)) = .ok (2, 1, 50) := by
  refine ⟨attachProgress_spec, attachMilestoneProgress_spec,
    fun s st r h => ProjectService.getAll_progressSpec s st r h,
    fun s id r h => ProjectService.getById_progressSpec s id r h,
    fun s d r s' h => ProjectService.create_progressSpec s d r s' h,
    fun s id d r s' h => ProjectService.update_progressSpec s id d r s' h,
    fun s pid ms r h hr => ProjectService.getMilestones_progressSpec s pid ms r h hr,
    fun s id r h => ProjectService.getMilestoneById_progressSpec s id r h,
    fun s d r s' h => ProjectService.createMilestone_progressSpec s d r s' h,
    fun s id u r s' h => ProjectService.completeMilestone_progressSpec s id u r s' h,
    rfl, rfl⟩

/-- Witness for C1: the `getById` conjunct applied at the 33% store. -/
theorem C1_witness :
    ProgressSpecP c1Store (ProjectService.attachProgress c1Store sampleProject) :=
  C1_progress_formula.2.2.2.1 c1Store 1
    (ProjectService.attachProgress c1Store sampleProject) rfl

/-- **C10.** Every `ProjectWithProgress` / `MilestoneWithProgress` record
returned by a `ProjectService` operation satisfies
`0 ≤ completed_tasks ≤ total_tasks` and `0 ≤ progress_percent ≤ 100`. -/
theorem C10_progress_bounds :
    (∀ (s : Store) (p : Project), ProgressBoundsP (ProjectService.attachProgress s p)) ∧
    (∀ (s : Store) (m : Milestone),
      ProgressBoundsM (ProjectService.attachMilestoneProgress s m)) ∧
    (∀ (s : Store) (status : Option String) (r : ProjectWithProgress),
      r ∈ ProjectService.getAll s status → ProgressBoundsP r) ∧
    (∀ (s : Store) (id : Nat) (r : ProjectWithProgress),
      ProjectService.getById s id = .ok r → ProgressBoundsP r) ∧
    (∀ (s : Store) (d : ProjectCreateInput) (r : ProjectWithProgress) (s' : Store),
      ProjectService.create s d = (.ok r, s') → ProgressBoundsP r) ∧
    (∀ (s : Store) (id : Nat) (d : ProjectUpdateInput) (r : ProjectWithProgress) (s' : Store),
      ProjectService.update s id d = (.ok r, s') → ProgressBoundsP r) ∧
    (∀ (s : Store) (pid : Nat) (ms : List MilestoneWithProgress) (r : MilestoneWithProgress),
      ProjectService.getMilestones s pid = .ok ms → r ∈ ms → ProgressBoundsM r) ∧
    (∀ (s : Store) (id : Nat) (r : MilestoneWithProgress),
      ProjectService.getMilestoneById s id = .ok r → ProgressBoundsM r) ∧
    (∀ (s : Store) (d : MilestoneCreateInput) (r : MilestoneWithProgress) (s' : Store),
      ProjectService.createMilestone s d = (.ok r, s') → ProgressBoundsM r) ∧
    (∀ (s : Store) (id : Nat) (undo : Bool) (r : MilestoneWithProgress) (s' : Store),
      ProjectService.completeMilestone s id undo = (.ok r, s') → ProgressBoundsM r) := by
  refine ⟨fun s p => progressSpecP_bounds s _ (attachProgress_spec s p),
    fun s m => progressSpecM_bounds s _ (attachMilestoneProgress_spec s m),
    fun s st r h => progressSpecP_bounds s r (ProjectService.getAll_progressSpec s st r h),
    fun s id r h => progressSpecP_bounds s r (ProjectService.getById_progressSpec s id r h),
    fun s d r s' h => progressSpecP_bounds s' r (ProjectService.create_progressSpec s d r s' h),
    fun s id d r s' h =>
      progressSpecP_bounds s' r (ProjectService.update_progressSpec s id d r s' h),
    fun s pid ms r h hr =>
      progressSpecM_bounds s r (ProjectService.getMilestones_progressSpec s pid ms r h hr),
    fun s id r h =>
      progressSpecM_bounds s r (ProjectService.getMilestoneById_progressSpec s id r h),
    fun s d r s' h =>
      progressSpecM_bounds s' r (ProjectService.createMilestone_progressSpec s d r s' h),
    fun s id u r s' h =>
      progressSpecM_bounds s' r (ProjectService.completeMilestone_progressSpec s id u r s' h)⟩

/-- Witness for C10: the milestone conjunct at the 50% store. -/
theorem C10_witness :
    ProgressBoundsM (ProjectService.attachMilestoneProgress c1Store sampleMilestone) :=
  C10_progress_bounds.2.2.2.2.2.2.2.1 c1Store 1
    (ProjectService.attachMilestoneProgress c1Store sampleMilestone) rfl

/-- **C4.** Deleting an existing task removes it and every Todo whose
`parent_id` equals its id: afterwards no listing (`getAll`,
`getStandalone`, `getProjectTree`) returns the task or any of its direct
subtasks. -/
theorem C4_delete_cascades (s : Store) (id : Nat) (T : Todo)
    (hl : lookupTodo s id = some T) (hlev : T.level = TodoLevel.task) :
    TodoService.delete s id =
      (.ok { success := true, id := id }, TodoService.deleteTodoStore s id) ∧
    (∀ t ∈ (TodoService.deleteTodoStore s id).todos, t.id ≠ id ∧ t.parent_id ≠ some id) ∧
    (∀ (o : TodoService.ListOptions) (t : Todo),
      t ∈ (TodoService.getAll (TodoService.deleteTodoStore s id) o).todos →
      t.id ≠ id ∧ t.parent_id ≠ some id) ∧
    (∀ (st : Option String) (t : Todo),
      t ∈ (TodoService.getStandalone (TodoService.deleteTodoStore s id) st).todos →
      t.id ≠ id ∧ t.parent_id ≠ some id) ∧
    (∀ (pid : Nat) (node : TodoWithChildren),
      node ∈ TodoService.getProjectTree (TodoService.deleteTodoStore s id) pid →
      node.toTodo.id ≠ id ∧ node.toTodo.parent_id ≠ some id ∧
      ∀ u ∈ node.subtasks, u.id ≠ id ∧ u.parent_id ≠ some id) := by
  have hdel : TodoService.delete s id =
      (.ok { success := true, id := id }, TodoService.deleteTodoStore s id) := by
    simp only [TodoService.delete, TodoService.getById_of_lookup s id T hl]
  have hclear : ∀ t ∈ (TodoService.deleteTodoStore s id).todos,
      t.id ≠ id ∧ t.parent_id ≠ some id :=
    fun t ht => (deleteTodoStore_clears s id t ht).2
  refine ⟨hdel, hclear, ?_, ?_, ?_⟩
  · intro o t ht
    exact hclear t (TodoService.getAll_sub _ o t ht)
  · intro st t ht
    exact hclear t (TodoService.getStandalone_sub _ st t ht)
  · intro pid node hnode
    obtain ⟨hmem, hsubs⟩ := TodoService.getProjectTree_node _ pid node hnode
    exact ⟨(hclear _ hmem).1, (hclear _ hmem).2, fun u hu => hclear u (hsubs u hu)⟩

def c4Task : Todo :=
  { id := 1, title := "t", description := none, status := TodoStatus.pending, priority := 3,
    due_date := none, project_id := some 1, parent_id := none, milestone_id := none,
    level := TodoLevel.task, created_at := 0, updated_at := 0 }

def c4Sub : Todo :=
  { id := 2, title := "u", description := none, status := TodoStatus.pending, priority := 3,
    due_date := none, project_id := some 1, parent_id := some 1, milestone_id := none,
    level := TodoLevel.subtask, created_at := 0, updated_at := 0 }

def c4Store : Store :=
  { projects := [sampleProject], milestones := [], todos := [c4Task, c4Sub],
    nextProjectId := 2, nextMilestoneId := 1, nextTodoId := 3, now := 0 }

/-- Witness for C4 at a concrete task with one subtask. -/
theorem C4_witness :
    TodoService.delete c4Store 1 =
      (.ok { success := true, id := 1 }, TodoService.deleteTodoStore c4Store 1) ∧
    (∀ t ∈ (TodoService.deleteTodoStore c4Store 1).todos, t.id ≠ 1 ∧ t.parent_id ≠ some 1) ∧
    (∀ (o : TodoService.ListOptions) (t : Todo),
      t ∈ (TodoService.getAll (TodoService.deleteTodoStore c4Store 1) o).todos →
      t.id ≠ 1 ∧ t.parent_id ≠ some 1) ∧
    (∀ (st : Option String) (t : Todo),
      t ∈ (TodoService.getStandalone (TodoService.deleteTodoStore c4Store 1) st).todos →
      t.id ≠ 1 ∧ t.parent_id ≠ some 1) ∧
    (∀ (pid : Nat) (node : TodoWithChildren),
      node ∈ TodoService.getProjectTree (TodoService.deleteTodoStore c4Store 1) pid →
      node.toTodo.id ≠ 1 ∧ node.toTodo.parent_id ≠ some 1 ∧
      ∀ u ∈ node.subtasks, u.id ≠ 1 ∧ u.parent_id ≠ some 1) :=
  C4_delete_cascades c4Store 1 c4Task rfl rfl

/-- **C7.** For every existing Project (resp. any successful Todo
update), `update` changes only the supplied fields plus the update
timestamp: every unsupplied field of the record keeps its value, every
supplied field takes the supplied value, `updated_at` becomes the
current clock, every other record and every other table is unchanged,
and the empty patch is a no-op that still refreshes the timestamp. -/
theorem C7_update_frame :
    (∀ (s : Store) (id : Nat) (d : ProjectUpdateInput) (p0 : Project),
      lookupProject s id = some p0 →
      ∃ r, ProjectService.update s id d = (.ok r, ProjectService.patchProjectStore s id d) ∧
        (ProjectService.patchProjectStore s id d).todos = s.todos ∧
        (ProjectService.patchProjectStore s id d).milestones = s.milestones ∧
        (∀ q ∈ s.projects, q.id ≠ id → q ∈ (ProjectService.patchProjectStore s id d).projects) ∧
        (∀ q ∈ (ProjectService.patchProjectStore s id d).projects, q.id ≠ id → q ∈ s.projects) ∧
        r.toProject = ProjectService.applyProjectPatch p0 d s.now ∧
        (d.name = none → r.name = p0.name) ∧
        (∀ v, d.name = some v → r.name = v) ∧
        (d.description = none → r.description = p0.description) ∧
        (∀ v, d.description = some v → r.description = v) ∧
        (d.status = none → r.status = p0.status) ∧
        (∀ v, d.status = some v → r.status = v) ∧
        r.id = p0.id ∧ r.created_at = p0.created_at ∧ r.updated_at = s.now ∧
        (d = {} → r.toProject = { p0 with updated_at := s.now })) ∧
    (∀ (s : Store) (id : Nat) (d : TodoUpdateInput) (r : Todo) (s' : Store),
      TodoService.update s id d = (.ok r, s') →
      ∃ t0, lookupTodo s id = some t0 ∧
        s'.projects = s.projects ∧ s'.milestones = s.milestones ∧
        (∀ u ∈ s.todos, u.id ≠ id → u ∈ s'.todos) ∧
        (∀ u ∈ s'.todos, u.id ≠ id → u ∈ s.todos) ∧
        r = TodoService.applyTodoPatch t0 d s.now ∧
        (d.title = none → r.title = t0.title) ∧
        (∀ v, d.title = some v → r.title = v) ∧
        (d.description = none → r.description = t0.description) ∧
        (∀ v, d.description = some v → r.description = v) ∧
        (d.status = none → r.status = t0.status) ∧
        (∀ v, d.status = some v → r.status = v) ∧
        (d.priority = none → r.priority = t0.priority) ∧
        (∀ v, d.priority = some v → r.priority = v) ∧
        (d.due_date = none → r.due_date = t0.due_date) ∧
        (∀ v, d.due_date = some v → r.due_date = v) ∧
        (d.project_id = none → r.project_id = t0.project_id) ∧
        (∀ v, d.project_id = some v → r.project_id = v) ∧
        (d.parent_id = none → r.parent_id = t0.parent_id) ∧
        (∀ v, d.parent_id = some v → r.parent_id = v) ∧
        (d.milestone_id = none → r.milestone_id = t0.milestone_id) ∧
        (∀ v, d.milestone_id = some v → r.milestone_id = v) ∧
        r.id = t0.id ∧ r.level = t0.level ∧ r.created_at = t0.created_at ∧
        r.updated_at = s.now ∧
        (d = {} → r = { t0 with updated_at := s.now })) := by
  constructor
  · intro s id d p0 hl
    refine ⟨_, ProjectService.update_ok s id d p0 hl, rfl, rfl,
      fun q hq hne => (patchProjectStore_frame s id d q).1 hq hne,
      fun q hq hne => (patchProjectStore_frame s id d q).2 hq hne,
      rfl, ?_, ?_, ?_, ?_, ?_, ?_, ?_, ?_, ?_, ?_⟩
    · intro hnone
      show (ProjectService.applyProjectPatch p0 d s.now).name = p0.name
      simp [ProjectService.applyProjectPatch, hnone]
    · intro v hv
      show (ProjectService.applyProjectPatch p0 d s.now).name = v
      simp [ProjectService.applyProjectPatch, hv]
    · intro hnone
      show (ProjectService.applyProjectPatch p0 d s.now).description = p0.description
      simp [ProjectService.applyProjectPatch, hnone]
    · intro v hv
      show (ProjectService.applyProjectPatch p0 d s.now).description = v
      simp [ProjectService.applyProjectPatch, hv]
    · intro hnone
      show (ProjectService.applyProjectPatch p0 d s.now).status = p0.status
      simp [ProjectService.applyProjectPatch, hnone]
    · intro v hv
      show (ProjectService.applyProjectPatch p0 d s.now).status = v
      simp [ProjectService.applyProjectPatch, hv]
    · rfl
    · rfl
    · rfl
    · intro hd
      show ProjectService.applyProjectPatch p0 d s.now = _
      rw [hd]
      simp [ProjectService.applyProjectPatch]
  · intro s id d r s' h
    obtain ⟨t0, hl, hid, hr, hs⟩ := TodoService.update_ok_char s id d r s' h
    subst hs
    refine ⟨t0, hl, rfl, rfl,
      fun u hu hne => (patchTodoStore_frame s id d u).1 hu hne,
      fun u hu hne => (patchTodoStore_frame s id d u).2 hu hne,
      hr, ?_, ?_, ?_, ?_, ?_, ?_, ?_, ?_, ?_, ?_, ?_, ?_, ?_, ?_, ?_, ?_,
      ?_, ?_, ?_, ?_, ?_⟩ <;>
      (try intro hnone) <;> (try intro v hv) <;> rw [hr] <;>
      simp_all [TodoService.applyTodoPatch]

/-- Witness for C7: name-only project patch and status-only todo patch
at the concrete store. -/
theorem C7_witness :
    (∃ r, ProjectService.update c1Store 1 { name := some "R" } =
        (.ok r, ProjectService.patchProjectStore c1Store 1 { name := some "R" }) ∧
      (ProjectService.patchProjectStore c1Store 1 { name := some "R" }).todos = c1Store.todos ∧
      (ProjectService.patchProjectStore c1Store 1 { name := some "R" }).milestones =
        c1Store.milestones ∧
      (∀ q ∈ c1Store.projects, q.id ≠ 1 →
        q ∈ (ProjectService.patchProjectStore c1Store 1 { name := some "R" }).projects) ∧
      (∀ q ∈ (ProjectService.patchProjectStore c1Store 1 { name := some "R" }).projects,
        q.id ≠ 1 → q ∈ c1Store.projects) ∧
      r.toProject = ProjectService.applyProjectPatch sampleProject { name := some "R" } c1Store.now ∧
      (({ name := some "R" } : ProjectUpdateInput).name = none → r.name = sampleProject.name) ∧
      (∀ v, ({ name := some "R" } : ProjectUpdateInput).name = some v → r.name = v) ∧
      (({ name := some "R" } : ProjectUpdateInput).description = none →
        r.description = sampleProject.description) ∧
      (∀ v, ({ name := some "R" } : ProjectUpdateInput).description = some v →
        r.description = v) ∧
      (({ name := some "R" } : ProjectUpdateInput).status = none →
        r.status = sampleProject.status) ∧
      (∀ v, ({ name := some "R" } : ProjectUpdateInput).status = some v → r.status = v) ∧
      r.id = sampleProject.id ∧ r.created_at = sampleProject.created_at ∧
      r.updated_at = c1Store.now ∧
      (({ name := some "R" } : ProjectUpdateInput) = {} →
        r.toProject = { sampleProject with updated_at := c1Store.now })) ∧
    (∃ t0, lookupTodo c1Store 2 = some t0 ∧
      (TodoService.patchTodoStore c1Store 2 { status := some TodoStatus.completed }).projects =
        c1Store.projects ∧
      (TodoService.patchTodoStore c1Store 2 { status := some TodoStatus.completed }).milestones =
        c1Store.milestones ∧
      (∀ u ∈ c1Store.todos, u.id ≠ 2 →
        u ∈ (TodoService.patchTodoStore c1Store 2 { status := some TodoStatus.completed }).todos) ∧
      (∀ u ∈ (TodoService.patchTodoStore c1Store 2 { status := some TodoStatus.completed }).todos,
        u.id ≠ 2 → u ∈ c1Store.todos) ∧
      TodoService.applyTodoPatch sampleTodoPend1 { status := some TodoStatus.completed }
          c1Store.now =
        TodoService.applyTodoPatch t0 { status := some TodoStatus.completed } c1Store.now ∧
      (({ status := some TodoStatus.completed } : TodoUpdateInput).title = none →
        (TodoService.applyTodoPatch sampleTodoPend1 { status := some TodoStatus.completed }
          c1Store.now).title = t0.title) ∧
      (∀ v, ({ status := some TodoStatus.completed } : TodoUpdateInput).title = some v →
        (TodoService.applyTodoPatch sampleTodoPend1 { status := some TodoStatus.completed }
          c1Store.now).title = v) ∧
      (({ status := some TodoStatus.completed } : TodoUpdateInput).description = none →
        (TodoService.applyTodoPatch sampleTodoPend1 { status := some TodoStatus.completed }
          c1Store.now).description = t0.description) ∧
      (∀ v, ({ status := some TodoStatus.completed } : TodoUpdateInput).description = some v →
        (TodoService.applyTodoPatch sampleTodoPend1 { status := some TodoStatus.completed }
          c1Store.now).description = v) ∧
      (({ status := some TodoStatus.completed } : TodoUpdateInput).status = none →
        (TodoService.applyTodoPatch sampleTodoPend1 { status := some TodoStatus.completed }
          c1Store.now).status = t0.status) ∧
      (∀ v, ({ status := some TodoStatus.completed } : TodoUpdateInput).status = some v →
        (TodoService.applyTodoPatch sampleTodoPend1 { status := some TodoStatus.completed }
          c1Store.now).status = v) ∧
      (({ status := some TodoStatus.completed } : TodoUpdateInput).priority = none →
        (TodoService.applyTodoPatch sampleTodoPend1 { status := some TodoStatus.completed }
          c1Store.now).priority = t0.priority) ∧
      (∀ v, ({ status := some TodoStatus.completed } : TodoUpdateInput).priority = some v →
        (TodoService.applyTodoPatch sampleTodoPend1 { status := some TodoStatus.completed }
          c1Store.now).priority = v) ∧
      (({ status := some TodoStatus.completed } : TodoUpdateInput).due_date = none →
        (TodoService.applyTodoPatch sampleTodoPend1 { status := some TodoStatus.completed }
          c1Store.now).due_date = t0.due_date) ∧
      (∀ v, ({ status := some TodoStatus.completed } : TodoUpdateInput).due_date = some v →
        (TodoService.applyTodoPatch sampleTodoPend1 { status := some TodoStatus.completed }
          c1Store.now).due_date = v) ∧
      (({ status := some TodoStatus.completed } : TodoUpdateInput).project_id = none →
        (TodoService.applyTodoPatch sampleTodoPend1 { status := some TodoStatus.completed }
          c1Store.now).project_id = t0.project_id) ∧
      (∀ v, ({ status := some TodoStatus.completed } : TodoUpdateInput).project_id = some v →
        (TodoService.applyTodoPatch sampleTodoPend1 { status := some TodoStatus.completed }
          c1Store.now).project_id = v) ∧
      (({ status := some TodoStatus.completed } : TodoUpdateInput).parent_id = none →
        (TodoService.applyTodoPatch sampleTodoPend1 { status := some TodoStatus.completed }
          c1Store.now).parent_id = t0.parent_id) ∧
      (∀ v, ({ status := some TodoStatus.completed } : TodoUpdateInput).parent_id = some v →
        (TodoService.applyTodoPatch sampleTodoPend1 { status := some TodoStatus.completed }
          c1Store.now).parent_id = v) ∧
      (({ status := some TodoStatus.completed } : TodoUpdateInput).milestone_id = none →
        (TodoService.applyTodoPatch sampleTodoPend1 { status := some TodoStatus.completed }
          c1Store.now).milestone_id = t0.milestone_id) ∧
      (∀ v, ({ status := some TodoStatus.completed } : TodoUpdateInput).milestone_id = some v →
        (TodoService.applyTodoPatch sampleTodoPend1 { status := some TodoStatus.completed }
          c1Store.now).milestone_id = v) ∧
      (TodoService.applyTodoPatch sampleTodoPend1 { status := some TodoStatus.completed }
        c1Store.now).id = t0.id ∧
      (TodoService.applyTodoPatch sampleTodoPend1 { status := some TodoStatus.completed }
        c1Store.now).level = t0.level ∧
      (TodoService.applyTodoPatch sampleTodoPend1 { status := some TodoStatus.completed }
        c1Store.now).created_at = t0.created_at ∧
      (TodoService.applyTodoPatch sampleTodoPend1 { status := some TodoStatus.completed }
        c1Store.now).updated_at = c1Store.now ∧
      (({ status := some TodoStatus.completed } : TodoUpdateInput) = {} →
        TodoService.applyTodoPatch sampleTodoPend1 { status := some TodoStatus.completed }
          c1Store.now = { t0 with updated_at := c1Store.now })) :=
  ⟨C7_update_frame.1 c1Store 1 { name := some "R" } sampleProject rfl,
   C7_update_frame.2 c1Store 2 { status := some TodoStatus.completed }
     (TodoService.applyTodoPatch sampleTodoPend1 { status := some TodoStatus.completed }
       c1Store.now)
     (TodoService.patchTodoStore c1Store 2 { status := some TodoStatus.completed }) rfl⟩

/-- **C6.** `createMany` applies `create` to the inputs in the given
order: the empty batch is a no-op, each step either commits one row and
continues or propagates the first failure; a successful batch returns
one record per input (all present in the final store), and a failed
batch leaves exactly the records of the successful prefix committed —
the final store is the state reached after the prefix, on which the
failing input's `create` fails without further mutation (no rollback). -/
theorem C6_createMany_sequential :
    (∀ s : Store, TodoService.createMany s [] = (.ok [], s)) ∧
    (∀ (s : Store) (i : TodoCreateInput) (rest : List TodoCreateInput),
      (∀ e s1, TodoService.create s i = (.error e, s1) →
        TodoService.createMany s (i :: rest) = (.error e, s) ∧ s1 = s) ∧
      (∀ t s1, TodoService.create s i = (.ok t, s1) →
        TodoService.createMany s (i :: rest) =
          (match TodoService.createMany s1 rest with
           | (.error e, s2) => (.error e, s2)
           | (.ok ts, s2) => (.ok (t :: ts), s2)))) ∧
    (∀ (items : List TodoCreateInput) (s : Store) (ts : List Todo) (s' : Store),
      TodoService.createMany s items = (.ok ts, s') →
      ts.length = items.length ∧ ∀ t ∈ ts, t ∈ s'.todos) ∧
    (∀ (items : List TodoCreateInput) (s : Store) (e : ServiceError) (s' : Store),
      TodoService.createMany s items = (.error e, s') →
      ∃ (k : Nat) (hk : k < items.length) (ts : List Todo),
        TodoService.createMany s (items.take k) = (.ok ts, s') ∧
        (∀ t ∈ ts, t ∈ s'.todos) ∧
        TodoService.create s' (items.get ⟨k, hk⟩) = (.error e, s')) := by
  refine ⟨fun s => rfl, ?_, ?_, ?_⟩
  · intro s i rest
    constructor
    · intro e s1 h
      have hs1 := TodoService.create_error_state s i e s1 h
      constructor
      · unfold TodoService.createMany
        rw [h, hs1]
      · exact hs1
    · intro t s1 h
      have hstep : TodoService.createMany s (i :: rest) =
          (match TodoService.create s i with
           | (.error e, s1) => (.error e, s1)
           | (.ok t, s1) =>
             match TodoService.createMany s1 rest with
             | (.error e, s2) => (.error e, s2)
             | (.ok ts, s2) => (.ok (t :: ts), s2)) := rfl
      rw [hstep, h]
  · intro items
    induction items with
    | nil =>
      intro s ts s' h
      unfold TodoService.createMany at h
      have hts : ts = [] := by simpa using (congrArg Prod.fst h).symm
      constructor
      · rw [hts]
        rfl
      · intro t ht
        rw [hts] at ht
        cases ht
    | cons i rest ih =>
      intro s ts s' h
      unfold TodoService.createMany at h
      rcases hc : TodoService.create s i with ⟨res, s1⟩
      rw [hc] at h
      cases res with
      | error e => exact absurd (congrArg Prod.fst h) (by simp)
      | ok t =>
        simp only at h
        rcases hcm : TodoService.createMany s1 rest with ⟨res2, s2⟩
        rw [hcm] at h
        cases res2 with
        | error e => exact absurd (congrArg Prod.fst h) (by simp)
        | ok ts2 =>
          have hts : t :: ts2 = ts := by simpa using congrArg Prod.fst h
          have hs2 : s2 = s' := by simpa using congrArg Prod.snd h
          rw [← hs2] at *
          obtain ⟨hlen, hmem⟩ := ih s1 ts2 s2 hcm
          have htmem : t ∈ s2.todos := by
            obtain ⟨rpid, _, _, hs1eq, _, _, _⟩ := TodoService.create_ok_char s i t s1 hc
            have ht1 : t ∈ s1.todos := by
              rw [hs1eq]
              simp [TodoService.insertTodo]
            have := TodoService.createMany_sub rest s1 t ht1
            rw [hcm] at this
            exact this
          constructor
          · rw [← hts]
            simp [hlen]
          · intro u hu
            rw [← hts] at hu
            cases hu with
            | head => exact htmem
            | tail _ hu2 => exact hmem u hu2
  · intro items
    induction items with
    | nil =>
      intro s e s' h
      exact absurd (congrArg Prod.fst h) (by simp [TodoService.createMany])
    | cons i rest ih =>
      intro s e s' h
      unfold TodoService.createMany at h
      rcases hc : TodoService.create s i with ⟨res, s1⟩
      rw [hc] at h
      cases res with
      | error e1 =>
        have he : e1 = e := by simpa using congrArg Prod.fst h
        have hs1 : s1 = s' := by simpa using congrArg Prod.snd h
        have hs1s : s1 = s := TodoService.create_error_state s i e1 s1 hc
        have hs's : s' = s := by rw [← hs1, hs1s]
        refine ⟨0, by simp, [], ?_, ?_, ?_⟩
        · simp only [List.take_zero]
          unfold TodoService.createMany
          rw [hs's]
        · intro t ht
          cases ht
        · show TodoService.create s' i = (.error e, s')
          rw [hs's, ← he]
          rw [hs1s] at hc
          exact hc
      | ok t =>
        simp only at h
        rcases hcm : TodoService.createMany s1 rest with ⟨res2, s2⟩
        rw [hcm] at h
        cases res2 with
        | ok ts2 => exact absurd (congrArg Prod.fst h) (by simp)
        | error e2 =>
          have he : e2 = e := by simpa using congrArg Prod.fst h
          have hs2 : s2 = s' := by simpa using congrArg Prod.snd h
          rw [he, hs2] at hcm
          obtain ⟨k, hk, ts, htake, hmem, hfail⟩ := ih s1 e s' hcm
          refine ⟨k + 1, by simpa using Nat.succ_lt_succ hk, ?_⟩
          obtain ⟨rpid, _, _, hs1eq, _, _, _⟩ := TodoService.create_ok_char s i t s1 hc
          have ht1 : t ∈ s1.todos := by
            rw [hs1eq]
            simp [TodoService.insertTodo]
          have htS : t ∈ s'.todos := by
            have := TodoService.createMany_sub (List.take k rest) s1 t ht1
            rw [htake] at this
            exact this
          refine ⟨t :: ts, ?_, ?_, hfail⟩
          · simp only [List.take_succ_cons]
            unfold TodoService.createMany
            rw [hc]
            simp only
            rw [htake]
          · intro u hu
            cases hu with
            | head => exact htS
            | tail _ hu2 => exact hmem u hu2


def c6Good : TodoCreateInput := { title := "g" }

/-- Fails: its parent id 99 does not exist. -/
def c6Bad : TodoCreateInput := { title := "b", parent_id := some 99 }

/-- State after the successful prefix of the failing batch. -/
def c6State1 : Store := (TodoService.create emptyStore c6Good).2

/-- Witness for C6: a 2-item batch whose second item fails leaves the
first item committed and surfaces the item's own failure. -/
theorem C6_witness :
    ∃ (k : Nat) (hk : k < ([c6Good, c6Bad] : List TodoCreateInput).length) (ts : List Todo),
      TodoService.createMany emptyStore (List.take k [c6Good, c6Bad]) = (.ok ts, c6State1) ∧
      (∀ t ∈ ts, t ∈ c6State1.todos) ∧
      TodoService.create c6State1 (([c6Good, c6Bad] : List TodoCreateInput).get ⟨k, hk⟩) =
        (.error (notFoundTodoError 99), c6State1) :=
  C6_createMany_sequential.2.2.2 [c6Good, c6Bad] emptyStore (notFoundTodoError 99) c6State1 rfl

def c5In1 : TodoCreateInput := { title := "t1" }

def c5In2 : TodoCreateInput := { title := "t2" }

/-- An update patch that reparents todo 2 under todo 1. -/
def c5Patch : TodoUpdateInput := { parent_id := some (some 1) }

/-- Reachable state in which todo 2 has been reparented by `update`
without its `level` being recomputed. -/
def c5Bad : Store :=
  (TodoService.update
    (TodoService.create (TodoService.create emptyStore c5In1).2 c5In2).2 2 c5Patch).2

/-- The violating row of `c5Bad`: `parent_id = some 1` yet
`level = task`. -/
def c5BadRow : Todo :=
  { id := 2, title := "t2", description := none, status := TodoStatus.pending, priority := 3,
    due_date := none, project_id := none, parent_id := some 1, milestone_id := none,
    level := TodoLevel.task, created_at := 0, updated_at := 0 }

theorem c5Bad_reachable : Reachable c5Bad :=
  Reachable.updateStep _ 2 c5Patch
    (Reachable.createStep _ c5In2 (Reachable.createStep _ c5In1 (Reachable.init 0)))

/-- **C5 (counterexample).** The claimed invariant — `level = subtask`
iff a parent reference is present, in every state reachable by the
TodoService operations — is false: `update` accepts a `parent_id` patch
and never recomputes `level`, so reparenting a task under another task
yields a row with a parent but `level = task`. -/
theorem C5_counterexample :
    ¬ (∀ s : Store, Reachable s → ∀ t ∈ s.todos, LevelInv t) := by
  intro h
  have hinv := h c5Bad c5Bad_reachable c5BadRow (by decide)
  have hpar : c5BadRow.parent_id ≠ none := by decide
  have hnone : c5BadRow.parent_id = none := hinv.2.mp (by decide)
  exact hpar hnone

/-- **C5 (amended).** In every store state reachable by any sequence of
TodoService operations in which no `update` input supplies `parent_id`
(`updateStatus` never does), every Todo row satisfies `level = subtask`
iff its `parent_id` is present and `level = task` iff it is absent. -/
theorem C5_level_parent_invariant (s : Store) (h : ReachableNR s) :
    ∀ t ∈ s.todos, LevelInv t :=
  (reachableNR_inv s h).2

def c5In3 : TodoCreateInput := { title := "t3", parent_id := some 1 }

/-- Reachable (without reparenting updates) store holding a task and a
subtask. -/
def c5Good : Store :=
  (TodoService.create (TodoService.create emptyStore c5In1).2 c5In3).2

/-- The subtask row of `c5Good`. -/
def c5GoodRow : Todo :=
  { id := 2, title := "t3", description := none, status := TodoStatus.pending, priority := 3,
    due_date := none, project_id := none, parent_id := some 1, milestone_id := none,
    level := TodoLevel.subtask, created_at := 0, updated_at := 0 }

/-- Witness for the amended C5 at a concrete reachable store. -/
theorem C5_witness : LevelInv c5GoodRow :=
  C5_level_parent_invariant c5Good
    (ReachableNR.createStep _ c5In3 (ReachableNR.createStep _ c5In1 (ReachableNR.init 0)))
    c5GoodRow (by decide)

end TodoMcp
